import Mathlib

/-!
Verification of the openfairdb place/event core against its specification.

The Rust sources under `src/` are shallowly embedded: Rust `String` becomes
`List Char` (so that both UTF-8 byte lengths and code-point indexing can be
expressed faithfully), machine integers become `Nat`/`Int`, fallible
functions return `Except`, and database mutation is explicit state passing.
Code of the repository that is not under `src/` (the `ofdb-entities` crate,
`core/util`, and some usecase modules) is modelled from the specification;
each such definition carries a doc comment starting with `Modelled from the
spec:`.
-/

/-- A Rust `String`/`&str`, embedded as its sequence of Unicode code points.
Byte-level quantities (`str::len`) are recovered via `Char.utf8Size`. -/
abbrev Str := List Char

/-- UTF-8 byte length of a string: Rust `str::len()`. -/
def byteLen (s : Str) : ℕ := (s.map Char.utf8Size).sum

/-- Rust `char::is_whitespace`: the Unicode `White_Space` property
(U+0009..U+000D, U+0020, U+0085, U+00A0, U+1680, U+2000..U+200A,
U+2028, U+2029, U+202F, U+205F, U+3000). -/
def isRustWhitespace (c : Char) : Bool :=
  (0x09 ≤ c.toNat && c.toNat ≤ 0x0D) || c.toNat == 0x20 || c.toNat == 0x85 ||
  c.toNat == 0xA0 || c.toNat == 0x1680 ||
  (0x2000 ≤ c.toNat && c.toNat ≤ 0x200A) || c.toNat == 0x2028 ||
  c.toNat == 0x2029 || c.toNat == 0x202F || c.toNat == 0x205F || c.toNat == 0x3000

/-- Rust `str::trim_start`. -/
def trimStart (s : Str) : Str := s.dropWhile isRustWhitespace

/-- Rust `str::trim_end`. -/
def trimEnd (s : Str) : Str := (s.reverse.dropWhile isRustWhitespace).reverse

/-- Rust `str::trim`. -/
def trim (s : Str) : Str := trimEnd (trimStart s)

/-- Splitting on a character predicate, keeping empty fields: the skeleton of
Rust `str::split`.  `splitPredAux p "" = [""]`, as in Rust. -/
def splitPredAux (p : Char → Bool) : Str → List Str
  | [] => [[]]
  | c :: rest =>
    if p c then [] :: splitPredAux p rest
    else
      match splitPredAux p rest with
      | [] => [[c]]
      | w :: ws => (c :: w) :: ws

/-- Rust `str::split(' ')`: splits on every single ASCII space, keeping
empty fields. -/
def splitOnSpace (s : Str) : List Str := splitPredAux (fun c => c == ' ') s

/-- Rust `str::split_whitespace`: splits on Unicode whitespace and discards
empty fields. -/
def split_whitespace (s : Str) : List Str :=
  (splitPredAux isRustWhitespace s).filter (fun w => !w.isEmpty)

/-- Rust `str::replace("#", "")`: removes every `'#'`. -/
def removeHash (s : Str) : Str := s.filter (fun c => c != '#')

/-- Lexicographic comparison of strings by code point.  For UTF-8 encoded
strings this coincides with Rust's byte-wise `Ord` on `String`, because the
UTF-8 encoding is order-preserving. -/
def strLe : Str → Str → Bool
  | [], _ => true
  | _ :: _, [] => false
  | a :: s, b :: t => if a < b then true else if b < a then false else strLe s t

/-- Propositional form of `strLe`, used as the sorting relation. -/
def StrLe (s t : Str) : Prop := strLe s t = true

instance : DecidableRel StrLe := fun s t => inferInstanceAs (Decidable (strLe s t = true))

/-- Strict lexicographic order on strings. -/
def StrLt (s t : Str) : Prop := StrLe s t ∧ s ≠ t

/-- Rust `Vec::dedup`: removes consecutive duplicates. -/
def dedupAdj {α : Type} [DecidableEq α] : List α → List α
  | [] => []
  | [a] => [a]
  | a :: b :: l => if a = b then dedupAdj (b :: l) else a :: dedupAdj (b :: l)

/-- The per-tag first/second pass of `prepare_tag_list`: trim, drop if empty
(Rust `filter_map` over `match t.trim()`). -/
def nonEmptyTrimmed (t : Str) : Option Str :=
  let t2 := trim t
  if t2.isEmpty then none else some t2

/-- `usecases::prepare_tag_list` (src/src/core/usecases/mod.rs): trim and drop
empties, split each tag on ASCII space, remove all `'#'`, trim and drop
empties again, sort, dedup.  `sort_unstable` on strings is order-deterministic
(equal elements are indistinguishable), so any sorting algorithm denotes the
same function; we use insertion sort. -/
def prepare_tag_list (tags : List Str) : List Str :=
  let step1 := tags.filterMap nonEmptyTrimmed
  let step2 := (step1.map splitOnSpace).flatten
  let step3 := step2.map removeHash
  let step4 := step3.filterMap nonEmptyTrimmed
  dedupAdj (List.insertionSort StrLe step4)

/-! ### Duplicate detection (src/src/core/usecases/find_duplicates.rs) -/

/-- `find_duplicates::min3`. -/
def min3 (s t u : ℕ) : ℕ := if s ≤ t then min s u else min t u

/-- The two kinds of duplicate flags (`find_duplicates::DuplicateType`). -/
inductive DuplicateType
  | SimilarChars
  | SimilarWords
  deriving DecidableEq, Repr

/-- One inner step of the Wagner-Fischer table fill: given the previous
column and the already-computed is of the current column, compute the
entries for i = 1, 2, ....  `cost i` is the substitution cost used at row
`i` of the current column. -/
def wfGo (cost : ℕ → ℕ) : ℕ → ℕ → ℕ → List ℕ → List ℕ
  | _, _, _, [] => []
  | i, qprev, pprev, p :: ps =>
    let q := min3 (qprev + 1) (p + 1) (pprev + cost i)
    q :: wfGo cost (i + 1) q p ps

/-- Column `j` of the distance table from column `j - 1`
(`d[0][j] = j`; `d[i][j] = min3(d[i-1][j]+1, d[i][j-1]+1, d[i-1][j-1]+cost)`). -/
def wfCol (cost : ℕ → ℕ) (j : ℕ) (prev : List ℕ) : List ℕ :=
  match prev with
  | [] => [j]
  | p0 :: ps => j :: wfGo cost 1 j p0 ps

/-- Substitution cost of the source's `levenshtein_distance`: it compares
`s.chars().nth(i)` with `t.chars().nth(j)` — one position further than the
classic algorithm, with `None == None` counting as a match.  Indices run to
the UTF-8 *byte* lengths of the strings. -/
def levCostSrc (s t : Str) (j i : ℕ) : ℕ := if s.get? i = t.get? j then 0 else 1

/-- Columns 0..j of the source's Levenshtein table.  The table has
`s.len() + 1` rows and `t.len() + 1` columns where `len` is the byte length. -/
def levCols (s t : Str) : ℕ → List ℕ
  | 0 => List.range (byteLen s + 1)
  | j + 1 => wfCol (levCostSrc s t (j + 1)) (j + 1) (levCols s t j)

/-- `find_duplicates::levenshtein_distance`, exactly as implemented in the
source: byte-length table dimensions, character costs shifted by one. -/
def levenshtein_distance (s t : Str) : ℕ :=
  (levCols s t (byteLen t)).getD (byteLen s) 0

/-- `find_duplicates::levenshtein_distance_small`. -/
def levenshtein_distance_small (s t : Str) (max_dist : ℕ) : Bool :=
  levenshtein_distance s t ≤ max_dist

/-- `words_equal_except_k_words`: true if all but `k` words are equal
(the title with fewer whitespace-words is turned into a set; the other
title is split on single ASCII spaces and its members not in the set are
counted), rejecting the case where both titles are single words. -/
def words_equal_except_k_words (str1 str2 : Str) (k : ℕ) : Bool :=
  let len1 := (split_whitespace str1).length
  let len2 := (split_whitespace str2).length
  if len1 == 1 && len2 == 1 then false
  else
    let s1 := if len1 ≤ len2 then str1 else str2
    let s2 := if len1 ≤ len2 then str2 else str1
    let set := split_whitespace s1
    let diff := (splitOnSpace s2).countP (fun w => !set.contains w)
    diff ≤ k

/-- Fuel-driven base-2 logarithm (the fuel only bounds the recursion
depth, which is logarithmic): `log2Fuel fuel n = ⌊log₂ n⌋` whenever
`1 ≤ n ≤ fuel`. -/
def log2Fuel : ℕ → ℕ → ℕ
  | 0, _ => 0
  | fuel + 1, n => if n < 2 then 0 else log2Fuel fuel (n / 2) + 1

/-- `⌊log₂ n⌋` for `n ≥ 1` (and `0` at `0`). -/
def natLog2 (n : ℕ) : ℕ := log2Fuel n n

/-- Round a natural number to a 24-bit significand, IEEE-754
round-to-nearest, ties-to-even: the exact value of `(a : f32)` for the
magnitudes arising here (no overflow, no subnormals). -/
def rne24 (a : ℕ) : ℕ :=
  if a < 2 ^ 24 then a
  else
    let b := natLog2 a
    let s := b - 23
    let q := a / 2 ^ s
    let r := a % 2 ^ s
    let h := 2 ^ (s - 1)
    if h < r ∨ (r = h ∧ q % 2 = 1) then (q + 1) * 2 ^ s else q * 2 ^ s

/-- The exact value of `((n as f32) * c + 1.0) as usize` computed in IEEE-754
single precision, where the constant `c` is represented by its value scaled
by `2^25` (so `0.3f32` is `10066330` and `0.0f32` is `0`).  Each operation
rounds its exact dyadic result to a 24-bit significand; the final cast
truncates toward zero. -/
def f32MulAddTrunc (c : ℕ) (n : ℕ) : ℕ :=
  rne24 (rne24 (rne24 n * c) + 2 ^ 25) / 2 ^ 25

/-- The 2^25-scaled significand of `0.3f32` (`0.3f32 = 10066330 / 2^25`). -/
def percent03 : ℕ := 10066330

/-- `find_duplicates::similar_title`.  The `max_percent_different` argument
is an `f32` in the source; it is only ever `0.3` or `0.0`, and is passed
here as its 2^25-scaled significand (`percent03` or `0`).  `max_dist` is
`((min(len1, len2) as f32 * max_percent_different) + 1.0) as usize` on the
UTF-8 byte lengths of the titles. -/
def similar_title (t1 t2 : Str) (cPercent : ℕ) (max_words_different : ℕ) : Bool :=
  levenshtein_distance_small t1 t2
      (f32MulAddTrunc cPercent (min (byteLen t1) (byteLen t2))) ||
    words_equal_except_k_words t1 t2 max_words_different

/-- `find_duplicates::is_duplicate`.  The geographic proximity check
`in_close_proximity` calls `MapPoint::distance` from the external
`ofdb-entities` crate, which is not under `src/`; its boolean outcome
(great-circle distance at most 100 m, false when a coordinate is missing)
is therefore passed in as the argument `close`.  Only the titles of the two
places are otherwise consulted. -/
def is_duplicate (close : Bool) (t1 t2 : Str) : Option DuplicateType :=
  if similar_title t1 t2 percent03 0 && close then some DuplicateType.SimilarChars
  else if similar_title t1 t2 0 2 && close then some DuplicateType.SimilarWords
  else none

/-- Modelled from the spec: the classic code-point-aware Levenshtein
distance (`O(n·m)` table, substitution cost comparing the `i-1`-st and
`j-1`-st characters), used as the reference meaning of "Levenshtein
distance" in the claims.  Computed with the same column machinery, with
table dimensions the code-point counts. -/
def specLevenshtein (s t : Str) : ℕ :=
  let cost := fun (j i : ℕ) => if s.get? (i - 1) = t.get? (j - 1) then 0 else 1
  let go : ℕ → List ℕ := fun jmax =>
    Nat.rec (List.range (s.length + 1))
      (fun j prev => wfCol (cost (j + 1)) (j + 1) prev) jmax
  (go t.length).getD s.length 0

/-- Modelled from the spec: the claimed `SimilarChars` threshold
`⌈min(len1, len2) · 0.3⌉ + 1` over the rationals, `len` being the
code-point count. -/
def specSimilarCharsThreshold (n : ℕ) : ℕ := (3 * n + 9) / 10 + 1

/-- Modelled from the spec: the claimed `SimilarWords` predicate — at most
2 whitespace-separated tokens of one title are not present in the other
(token lists compared as sets), rejecting the case where both titles have
exactly one token. -/
def specSimilarWords (t1 t2 : Str) : Bool :=
  let w1 := split_whitespace t1
  let w2 := split_whitespace t2
  if w1.length == 1 && w2.length == 1 then false
  else
    ((w1.filter (fun w => !w2.contains w)).dedup.length ≤ 2) ||
      ((w2.filter (fun w => !w1.contains w)).dedup.length ≤ 2)

/-! ### Shared error taxonomy (core::error) -/

/-- Parameter errors (`ParameterError`), per the source error taxonomy. -/
inductive ParameterError
  | InvalidPosition | Bbox | Email | Phone | Url | Contact | RegistrationType
  | CreatorEmail | InvalidOpeningHours | TokenInvalid | Credentials
  | Unauthorized | Forbidden | UserExists | EmailNotConfirmed | OwnedTag
  deriving DecidableEq, Repr

/-- Repository errors (`RepoError`). -/
inductive RepoError
  | NotFound | InvalidVersion
  deriving DecidableEq, Repr

/-- The use-case error type (`core::error::Error`): parameter or repository
errors, plus an opaque wrapper for internal faults (`Other(cause)`). -/
inductive Error
  | parameter (e : ParameterError)
  | repo (e : RepoError)
  | other
  deriving DecidableEq, Repr

/-! ### Geography (modelled: `core::util::geo` / `ofdb-entities` are not under src/) -/

/-- Modelled from the spec: a geographic point with latitude/longitude in
degrees.  The source's `MapPoint` lives in the external `ofdb-entities`
crate; coordinates are embedded as rationals. -/
structure MapPoint where
  lat : ℚ
  lng : ℚ
  deriving DecidableEq, Repr

/-- Modelled from the spec: `MapPoint::try_from_lat_lng_deg` — defined
exactly for latitudes in [-90, 90] and longitudes in [-180, 180]. -/
def tryFromLatLngDeg (lat lng : ℚ) : Option MapPoint :=
  if -90 ≤ lat ∧ lat ≤ 90 ∧ -180 ≤ lng ∧ lng ≤ 180 then some ⟨lat, lng⟩ else none

/-- Modelled from the spec: `MapPoint::default()`, the marker used when no
position is available. -/
def mapPointDefault : MapPoint := ⟨0, 0⟩

/-- A geographic bounding box given by its south-west and north-east
corners (`Bbox` of the old entity model / `MapBbox`). -/
structure Bbox where
  south_west : MapPoint
  north_east : MapPoint
  deriving DecidableEq, Repr

/-- Modelled from the spec: a bbox contains a point iff
`sw.lat ≤ lat ≤ ne.lat` and, for the longitude, `sw.lng ≤ lng ≤ ne.lng`, or,
when the bbox wraps the antimeridian (`ne.lng < sw.lng`),
`lng ≥ sw.lng ∨ lng ≤ ne.lng`. -/
def bboxContains (b : Bbox) (p : MapPoint) : Bool :=
  decide (b.south_west.lat ≤ p.lat) && decide (p.lat ≤ b.north_east.lat) &&
    (if b.north_east.lng < b.south_west.lng
     then decide (b.south_west.lng ≤ p.lng) || decide (p.lng ≤ b.north_east.lng)
     else decide (b.south_west.lng ≤ p.lng) && decide (p.lng ≤ b.north_east.lng))

/-- Modelled from the spec: `filter::extend_bbox`, which widens a search
bbox by a ~10% margin on each side. -/
def extend_bbox (b : Bbox) : Bbox :=
  let dlat := (b.north_east.lat - b.south_west.lat) / 10
  let dlng := (b.north_east.lng - b.south_west.lng) / 10
  ⟨⟨b.south_west.lat - dlat, b.south_west.lng - dlng⟩,
   ⟨b.north_east.lat + dlat, b.north_east.lng + dlng⟩⟩

/-! ### Search (src/src/core/usecases/search.rs) -/

/-- The entry model consumed by the search use case.  Modelled from the
spec (the entity definitions are not under src/): only the fields the
search post-processing touches are carried — the id (key into the
average-rating map) and the position. -/
structure Entry where
  id : Str
  lat : ℚ
  lng : ℚ
  deriving DecidableEq, Repr

/-- Modelled from the spec: `InBBox::in_bbox` for entries — the entry's
position is contained in the bbox. -/
def entryInBbox (e : Entry) (b : Bbox) : Bool := bboxContains b ⟨e.lat, e.lng⟩

/-- `search::MAX_INVISIBLE_RESULTS`. -/
def MAX_INVISIBLE_RESULTS : ℕ := 5

/-- Modelled from the spec: `SortByAverageRating::sort_by_avg_rating` —
stable sort by descending average rating.  `ratings` is the
`entry_ratings` map, totalised. -/
def sortByAvgRating (ratings : Str → ℚ) (entries : List Entry) : List Entry :=
  List.insertionSort (fun a b => ratings b.id ≤ ratings a.id) entries

/-- `usecases::search`, post-index part: the index's result list is passed
in as `entries` (the index itself is an external collaborator specified
only by its contract).  Sorts by descending average rating, then splits
into the entries inside the requested (visible) bbox and at most
`MAX_INVISIBLE_RESULTS` entries outside it. -/
def search (entries : List Entry) (ratings : Str → ℚ) (visible_bbox : Bbox) :
    List Entry × List Entry :=
  let sorted := sortByAvgRating ratings entries
  (sorted.filter (fun x => entryInBbox x visible_bbox),
   (sorted.filter (fun x => !entryInBbox x visible_bbox)).take MAX_INVISIBLE_RESULTS)

/-! ### Bbox subscriptions and event notification
(src/src/core/usecases/mod.rs, src/src/infrastructure/flows/create_event.rs) -/

/-- `BboxSubscription`. -/
structure BboxSubscription where
  id : Str
  user_email : Str
  bbox : Bbox
  deriving DecidableEq, Repr

/-- `usecases::bbox_subscriptions_by_coordinate`: all stored subscriptions
whose bbox contains the position. -/
def bbox_subscriptions_by_coordinate (subs : List BboxSubscription) (pos : MapPoint) :
    List BboxSubscription :=
  subs.filter (fun s => bboxContains s.bbox pos)

/-- `usecases::email_addresses_by_coordinate`: the subscriber emails of the
matching subscriptions, in stored order, without de-duplication. -/
def email_addresses_by_coordinate (subs : List BboxSubscription) (pos : MapPoint) :
    List Str :=
  (bbox_subscriptions_by_coordinate subs pos).map (fun s => s.user_email)

/-! ### Users, roles, tokens (entity model; src usecases) -/

/-- `Role`, ordered `Guest < User < Scout < Admin`. -/
inductive Role
  | guest | user | scout | admin
  deriving DecidableEq, Repr

/-- The user entity.  Field names follow the source (`User`); the password
hash is embedded as an opaque string. -/
structure User where
  id : Str
  username : Str
  email : Str
  password : Str
  email_confirmed : Bool
  role : Role
  deriving DecidableEq, Repr

/-- `EmailNonce`: an email paired with a nonce, the payload of a
confirmation token. -/
structure EmailNonce where
  email : Str
  nonce : Str
  deriving DecidableEq, Repr

/-- `UserToken`: a stored `EmailNonce` with its expiry instant. -/
structure UserToken where
  email_nonce : EmailNonce
  expires_at : ℤ
  deriving DecidableEq, Repr

/-- The store visible to `confirm_email_address`: the registered users and
the stored user tokens (the latter are present so that claims about them
can be stated; the function itself never consults them). -/
structure UserDb where
  users : List User
  user_tokens : List UserToken
  deriving DecidableEq, Repr

/-- Modelled from the spec: `EmailNonce::decode_from_str`.  A submitted
token string either fails to decode or decodes to the (email, nonce) pair
that was encoded into it (the spec's round-trip law); tokens are therefore
embedded as `Option EmailNonce`, `none` standing for any malformed string. -/
def decode_from_str (token : Option EmailNonce) : Except Unit EmailNonce :=
  match token with
  | none => Except.error ()
  | some en => Except.ok en

/-- `UserGateway::get_user_by_email` (sqlite): first user with the email,
`NotFound` otherwise. -/
def get_user_by_email (db : UserDb) (email : Str) : Except Error User :=
  match db.users.find? (fun u => u.email == email) with
  | none => Except.error (Error.repo RepoError.NotFound)
  | some u => Except.ok u

/-- `UserGateway::update_user` (sqlite): overwrite the rows whose email
matches the given user's email. -/
def update_user (db : UserDb) (u : User) : UserDb :=
  { db with users := db.users.map (fun v => if v.email == u.email then u else v) }

/-- `usecases::confirm_email_address`
(src/src/core/usecases/confirm_email.rs): decode the token, look the user
up by the decoded email, and if the email is not yet confirmed, set
`email_confirmed` and promote `Guest` to `User`.  The stored `UserToken`s
are never consulted.  (The source's `debug_assert_eq!(Role::Guest, ...)` is
compiled out in release builds and has no semantics.)  Returns the result
together with the possibly-updated store. -/
def confirm_email_address (db : UserDb) (token : Option EmailNonce) :
    Except Error Unit × UserDb :=
  match decode_from_str token with
  | Except.error _ => (Except.error (Error.parameter ParameterError.TokenInvalid), db)
  | Except.ok en =>
    match get_user_by_email db en.email with
    | Except.error e => (Except.error e, db)
    | Except.ok u =>
      if u.email_confirmed then (Except.ok (), db)
      else
        let u2 := { u with
          email_confirmed := true
          role := if u.role = Role.guest then Role.user else u.role }
        (Except.ok (), update_user db u2)

/-! ### Events (src/src/core/usecases/create_new_event.rs, query_events.rs,
src/src/infrastructure/flows/create_event.rs) -/

/-- `Organization`: id, name, api token and owned tags. -/
structure Organization where
  id : Str
  name : Str
  api_token : Str
  owned_tags : List Str
  deriving DecidableEq, Repr

/-- The event-side address (`Address` as used by `create_new_event.rs`:
street/zip/city/country). -/
structure EventAddress where
  street : Option Str
  zip : Option Str
  city : Option Str
  country : Option Str
  deriving DecidableEq, Repr

/-- The event-side contact (`Contact { email, telephone }`). -/
structure EventContact where
  email : Option Str
  telephone : Option Str
  deriving DecidableEq, Repr

/-- A location: a position (defaulted to `mapPointDefault` when absent) and
an optional address. -/
structure EventLocation where
  pos : MapPoint
  address : Option EventAddress
  deriving DecidableEq, Repr

/-- `RegistrationType`. -/
inductive RegistrationType
  | email | phone | homepage
  deriving DecidableEq, Repr

/-- The event entity as built by `try_into_new_event` (timestamps are
seconds, embedded as integers; URLs as strings). -/
structure Event where
  id : Str
  title : Str
  start : ℤ
  ev_end : Option ℤ
  description : Option Str
  location : Option EventLocation
  contact : Option EventContact
  homepage : Option Str
  tags : List Str
  created_by : Option Str
  registration : Option RegistrationType
  organizer : Option Str
  archived : Option ℤ
  deriving DecidableEq, Repr

/-- Modelled from the spec: ASCII lowercasing (Rust `str::to_lowercase`;
only ASCII words are ever compared by the embedded callers). -/
def asciiLowercase (s : Str) : Str :=
  s.map (fun c => if 'A' ≤ c ∧ c ≤ 'Z' then Char.ofNat (c.toNat + 32) else c)

/-- `RegistrationType::from_str`: case-insensitive parse of
`email` / `telephone` / `homepage`. -/
def registration_type_from_str (s : Str) : Except Error RegistrationType :=
  let l := asciiLowercase s
  if l == "email".toList then Except.ok RegistrationType.email
  else if l == "telephone".toList then Except.ok RegistrationType.phone
  else if l == "homepage".toList then Except.ok RegistrationType.homepage
  else Except.error (Error.parameter ParameterError.RegistrationType)

/-- `usecases::NewEvent`: the decoded creation request (`end` is spelled
`ev_end`; `f64` coordinates are embedded as rationals). -/
structure NewEvent where
  title : Str
  description : Option Str
  start : ℤ
  ev_end : Option ℤ
  lat : Option ℚ
  lng : Option ℚ
  street : Option Str
  zip : Option Str
  city : Option Str
  country : Option Str
  email : Option Str
  telephone : Option Str
  homepage : Option Str
  tags : Option (List Str)
  created_by : Option Str
  token : Option Str
  registration : Option Str
  organizer : Option Str
  deriving DecidableEq, Repr

/-- The store visible to the event use cases. -/
structure EventDb where
  orgs : List Organization
  users : List User
  tags : List Str
  events : List Event
  deriving DecidableEq, Repr

/-- `get_all_tags_owned_by_orgs`: all tags owned by any organization. -/
def get_all_tags_owned_by_orgs (db : EventDb) : List Str :=
  (db.orgs.map (fun o => o.owned_tags)).flatten

/-- Modelled from the spec: `check_for_owned_tags` (its module is not under
src/; it mirrors `check_and_count_owned_tags` in
src/src/core/usecases/mod.rs): a tag owned by any organization may only be
used when the supplied organization owns it, otherwise `OwnedTag`. -/
def check_for_owned_tags (db : EventDb) (tags : List Str) (org : Option Organization) :
    Except Error Unit :=
  let owned := get_all_tags_owned_by_orgs db
  if tags.all (fun t =>
      !owned.contains t ||
        (match org with
         | some o => o.owned_tags.contains t
         | none => false))
  then Except.ok ()
  else Except.error (Error.parameter ParameterError.OwnedTag)

/-- Modelled from the spec: the username generated from an email by
stripping non-alphanumerics and lowercasing. -/
def username_from_email (email : Str) : Str :=
  (asciiLowercase email).filter (fun c => c.isAlphanum)

/-- Modelled from the spec: `create_user_from_email` (its module is not
under src/): returns the username of the user registered under the email,
creating a fresh guest user with a generated username when none exists. -/
def create_user_from_email (db : EventDb) (email : Str) : Str × EventDb :=
  match db.users.find? (fun u => u.email == email) with
  | some u => (u.username, db)
  | none =>
    let un := username_from_email email
    (un, { db with users := db.users ++
      [{ id := un, username := un, email := email, password := []
         email_confirmed := false, role := Role.guest }] })

/-- `create_tag_if_it_does_not_exist` (sqlite): `INSERT OR IGNORE`
semantics on the tag table. -/
def event_create_tag (db : EventDb) (t : Str) : EventDb :=
  if db.tags.contains t then db else { db with tags := db.tags ++ [t] }

/-- Modelled from the spec: `parse_url_param` for events (the URL parser is
not under src/ and the spec leaves its exact acceptance open); it is
permissive and returns the input. -/
def parse_url_param_event (s : Str) : Except Error Str := Except.ok s

/-- Modelled from the spec: `Event::auto_correct` (not under src/; the spec
describes no auto-correction) — the identity. -/
def event_auto_correct (e : Event) : Event := e

/-- Modelled from the spec: `Event::validate` (not under src/).  The only
event-shape invariant the spec states beyond the registration coherence
checked inline is `end ≥ start`. -/
def event_validate (e : Event) : Except Error Unit :=
  match e.ev_end with
  | some en => if en < e.start then Except.error Error.other else Except.ok ()
  | none => Except.ok ()

/-- `usecases::try_into_new_event`
(src/src/core/usecases/create_new_event.rs).  The randomly generated UUID
is passed in as `id`.  Returns the built event (or the first error) along
with the store, which may have gained a creator user and the event's tags.
The control flow follows the source: bearer-token resolution, tag
normalization and owned-tag check, address/position/contact assembly,
homepage parse, creator resolution, registration coherence checks,
organizer trimming, auto-correct and validation, then tag insertion. -/
def try_into_new_event (db : EventDb) (id : Str) (e : NewEvent) :
    Except Error Event × EventDb :=
  let orgR : Except Error (Option Organization) :=
    match e.token with
    | some tk =>
      match db.orgs.find? (fun o => o.api_token == tk) with
      | none => Except.error (Error.parameter ParameterError.Unauthorized)
      | some o => Except.ok (some o)
    | none => Except.ok none
  match orgR with
  | Except.error er => (Except.error er, db)
  | Except.ok org =>
    let tags := prepare_tag_list (e.tags.getD [])
    match check_for_owned_tags db tags org with
    | Except.error er => (Except.error er, db)
    | Except.ok _ =>
      let address :=
        if e.street.isSome || e.zip.isSome || e.city.isSome || e.country.isSome then
          some (EventAddress.mk e.street e.zip e.city e.country)
        else none
      let pos :=
        match e.lat, e.lng with
        | some la, some ln => tryFromLatLngDeg la ln
        | _, _ => none
      let location :=
        if pos.isSome || address.isSome then
          some (EventLocation.mk (pos.getD mapPointDefault) address)
        else none
      let contact :=
        if e.email.isSome || e.telephone.isSome then
          some (EventContact.mk e.email e.telephone)
        else none
      let homepageR : Except Error (Option Str) :=
        match (e.homepage.filter (fun h => !h.isEmpty)).map parse_url_param_event with
        | none => Except.ok none
        | some (Except.error er) => Except.error er
        | some (Except.ok u) => Except.ok (some u)
      match homepageR with
      | Except.error er => (Except.error er, db)
      | Except.ok homepage =>
        let (created_by, db1) :=
          match e.created_by with
          | some em =>
            let r := create_user_from_email db em
            (some r.1, r.2)
          | none => (none, db)
        let regR : Except Error (Option RegistrationType) :=
          match e.registration with
          | none => Except.ok none
          | some r =>
            if r.isEmpty then Except.ok none
            else
              match registration_type_from_str r with
              | Except.error er => Except.error er
              | Except.ok rt =>
                match rt with
                | RegistrationType.email =>
                  match contact with
                  | none => Except.error (Error.parameter ParameterError.Contact)
                  | some c =>
                    if c.email.isNone then Except.error (Error.parameter ParameterError.Email)
                    else Except.ok (some rt)
                | RegistrationType.phone =>
                  match contact with
                  | none => Except.error (Error.parameter ParameterError.Contact)
                  | some c =>
                    if c.telephone.isNone then Except.error (Error.parameter ParameterError.Phone)
                    else Except.ok (some rt)
                | RegistrationType.homepage =>
                  if homepage.isNone then Except.error (Error.parameter ParameterError.Url)
                  else Except.ok (some rt)
        match regR with
        | Except.error er => (Except.error er, db1)
        | Except.ok registration =>
          let organizer := (e.organizer.map trim).filter (fun x => !x.isEmpty)
          let event : Event :=
            { id := id, title := e.title, start := e.start, ev_end := e.ev_end
              description := e.description, location := location, contact := contact
              homepage := homepage, tags := tags, created_by := created_by
              registration := registration, organizer := organizer, archived := none }
          let event := event_auto_correct event
          match event_validate event with
          | Except.error er => (Except.error er, db1)
          | Except.ok _ =>
            (Except.ok event, event.tags.foldl event_create_tag db1)

/-- The observable effect of `notify_event_created`
(src/src/infrastructure/flows/create_event.rs): the email list computed
from the subscriptions (when the event has a location) and the list of
notification-gateway invocations that were issued, each invocation being
the email list it was passed. -/
structure NotifyEventResult where
  computed_emails : Option (List Str)
  gateway_invocations : List (List Str)
  deriving DecidableEq, Repr

/-- `notify_event_created`: when the event has a location, the subscriber
emails for its position are computed via
`usecases::email_addresses_by_coordinate`; the actual gateway call
`notify::event_created` is commented out in the source (an error is logged
instead), so no invocation is ever issued. -/
def notify_event_created (subs : List BboxSubscription) (ev : Event) : NotifyEventResult :=
  match ev.location with
  | some loc =>
    { computed_emails := some (email_addresses_by_coordinate subs loc.pos)
      gateway_invocations := [] }
  | none => { computed_emails := none, gateway_invocations := [] }

/-! ### Event queries (src/src/core/usecases/query_events.rs) -/

/-- Modelled from the repository contract: `db.get_events(start_min,
start_max)` returns the stored, non-archived events whose start lies within
the optional bounds. -/
def db_get_events (db : EventDb) (start_min start_max : Option ℤ) : List Event :=
  db.events.filter (fun e =>
    e.archived.isNone &&
    (match start_min with | some m => decide (m ≤ e.start) | none => true) &&
    (match start_max with | some m => decide (e.start ≤ m) | none => true))

/-- Modelled from the spec: `InBBox::in_bbox` for events — false when the
event has no location. -/
def eventInBbox (b : Bbox) (e : Event) : Bool :=
  match e.location with
  | some loc => bboxContains b loc.pos
  | none => false

/-- `usecases::query_events`: resolve an optional bearer token (failing
with `Unauthorized` when unknown), load events in the start range, filter
by (extended) bbox, by tags, and by creator — an unknown creator email
empties the result — then sort by ascending start time. -/
def query_events (db : EventDb) (tags : Option (List Str)) (bbox : Option Bbox)
    (start_min start_max : Option ℤ) (created_by : Option Str) (token : Option Str) :
    Except Error (List Event) :=
  let orgR : Except Error Unit :=
    match token with
    | some tk =>
      match db.orgs.find? (fun o => o.api_token == tk) with
      | none => Except.error (Error.parameter ParameterError.Unauthorized)
      | some _ => Except.ok ()
    | none => Except.ok ()
  match orgR with
  | Except.error er => Except.error er
  | Except.ok _ =>
    let events := db_get_events db start_min start_max
    let events :=
      match bbox with
      | some b => events.filter (eventInBbox (extend_bbox b))
      | none => events
    let events :=
      match tags with
      | some ts => events.filter (fun e => ts.any (fun t => e.tags.any (fun et => et == t)))
      | none => events
    let events :=
      match created_by with
      | some em =>
        match db.users.find? (fun u => u.email == em) with
        | some u => events.filter (fun e => e.created_by == some u.username)
        | none => []
      | none => events
    Except.ok (List.insertionSort (fun a b => a.start ≤ b.start) events)

/-! ### Place revision engine
(src/src/core/usecases/update_place.rs,
src/src/infrastructure/db/sqlite/connection.rs) -/

/-- `ReviewStatus`, with its small-integer persistence values preserving
the ordering `Archived (-2) < Rejected (-1) < Created (0) < Confirmed (1)`. -/
inductive ReviewStatus
  | created | confirmed | rejected | archived
  deriving DecidableEq, Repr

/-- The persistence primitive of a `ReviewStatus`. -/
def ReviewStatus.toPrim : ReviewStatus → ℤ
  | ReviewStatus.archived => -2
  | ReviewStatus.rejected => -1
  | ReviewStatus.created => 0
  | ReviewStatus.confirmed => 1

/-- `ReviewStatus::try_from` on the persistence primitive. -/
def reviewStatusFromPrim (p : ℤ) : Option ReviewStatus :=
  if p = -2 then some ReviewStatus.archived
  else if p = -1 then some ReviewStatus.rejected
  else if p = 0 then some ReviewStatus.created
  else if p = 1 then some ReviewStatus.confirmed
  else none

/-- `Activity`: a timestamp plus an optional author email.  The source
field names `at` and `by` are Lean keywords and carry a trailing
underscore here. -/
structure Activity where
  at_ : ℤ
  by_ : Option Str
  deriving DecidableEq, Repr

/-- `ActivityLog`: an activity with optional review context and comment. -/
structure ActivityLog where
  activity : Activity
  context : Option Str
  comment : Option Str
  deriving DecidableEq, Repr

/-- `AuthorizedRevision`. -/
structure AuthorizedRevision where
  revision : ℕ
  review_status : Option ReviewStatus
  deriving DecidableEq, Repr

/-- The place-side address (`Address` as used by `update_place.rs`,
including `state`). -/
structure Address where
  street : Option Str
  zip : Option Str
  city : Option Str
  country : Option Str
  state : Option Str
  deriving DecidableEq, Repr

/-- `Address::is_empty`. -/
def Address.is_empty (a : Address) : Bool :=
  a.street.isNone && a.zip.isNone && a.city.isNone && a.country.isNone && a.state.isNone

/-- The place-side contact (`Contact { email, phone }`). -/
structure Contact where
  email : Option Str
  phone : Option Str
  deriving DecidableEq, Repr

/-- `Links` (URLs embedded as strings). -/
structure Links where
  homepage : Option Str
  image : Option Str
  image_href : Option Str
  deriving DecidableEq, Repr

/-- A place location: a position and an optional address. -/
structure PlaceLocation where
  pos : MapPoint
  address : Option Address
  deriving DecidableEq, Repr

/-- The place entity (`Place`).  Revisions are natural numbers (`Revision`
wraps a `u64`; `next` is `+1`, the initial revision is `1`). -/
structure Place where
  id : Str
  license : Str
  revision : ℕ
  created : Activity
  title : Str
  description : Str
  location : PlaceLocation
  contact : Option Contact
  opening_hours : Option Str
  links : Option Links
  tags : List Str
  deriving DecidableEq, Repr

/-- `usecases::UpdatePlace`: the decoded update request. -/
structure UpdatePlace where
  version : ℕ
  title : Str
  description : Str
  lat : ℚ
  lng : ℚ
  street : Option Str
  zip : Option Str
  city : Option Str
  country : Option Str
  state : Option Str
  email : Option Str
  telephone : Option Str
  homepage : Option Str
  opening_hours : Option Str
  categories : List Str
  tags : List Str
  image_url : Option Str
  image_link_url : Option Str
  deriving DecidableEq, Repr

/-- `update_place::Storable`. -/
structure Storable where
  place : Place
  auth_org_ids : List Str
  last_authorized : AuthorizedRevision
  deriving DecidableEq, Repr

/-- A row of the `place` table. -/
structure PlaceRow where
  rowid : ℤ
  pid : Str
  license : Str
  current_rev : ℕ
  deriving DecidableEq, Repr

/-- A row of the `place_revision` table. -/
structure PlaceRevRow where
  rowid : ℤ
  parent_rowid : ℤ
  rev : ℕ
  created_at : ℤ
  created_by : Option ℤ
  current_status : ℤ
  title : Str
  description : Str
  lat : ℚ
  lng : ℚ
  street : Option Str
  zip : Option Str
  city : Option Str
  country : Option Str
  email : Option Str
  phone : Option Str
  homepage : Option Str
  image_url : Option Str
  image_link_url : Option Str
  deriving DecidableEq, Repr

/-- A row of the `place_revision_review` table. -/
structure PlaceReviewRow where
  parent_rowid : ℤ
  rev : ℕ
  created_at : ℤ
  created_by : Option ℤ
  status : ℤ
  context : Option Str
  comment : Option Str
  deriving DecidableEq, Repr

/-- A row of the `place_revision_tag` table. -/
structure PlaceRevTagRow where
  parent_rowid : ℤ
  tag : Str
  deriving DecidableEq, Repr

/-- A stored rating (only the linkage matters to the embedded flows). -/
structure RatingRec where
  id : Str
  place_id : Str
  deriving DecidableEq, Repr

/-- The relational store behind the place engine.  `next_rowid` models
SQLite rowid allocation for inserts. -/
structure PlaceDb where
  next_rowid : ℤ
  places : List PlaceRow
  revisions : List PlaceRevRow
  reviews : List PlaceReviewRow
  rev_tags : List PlaceRevTagRow
  tags : List Str
  users : List (ℤ × Str)
  orgs : List Organization
  pending_auths : List (List Str × Str × ℤ)
  ratings : List RatingRec
  deriving DecidableEq, Repr

/-- `resolve_place_rowid`: rowid and current revision of the place row with
the given id; `NotFound` when absent. -/
def resolve_place_rowid (db : PlaceDb) (pid : Str) : Except Error (ℤ × ℕ) :=
  match db.places.find? (fun r => r.pid == pid) with
  | none => Except.error (Error.repo RepoError.NotFound)
  | some r => Except.ok (r.rowid, r.current_rev)

/-- `resolve_user_created_by_email`: numeric user id by email. -/
def resolve_user_by_email (db : PlaceDb) (email : Str) : Except Error ℤ :=
  match db.users.find? (fun u => u.2 == email) with
  | none => Except.error (Error.repo RepoError.NotFound)
  | some u => Except.ok u.1

/-- `PlaceRepo::get_place` composed with the `get_places` join and
`load_place`: the current revision row of the place joined with its tags
and creator email, rebuilt into the domain `Place` plus its review status.
The revision row carries no `state` and no opening hours (those columns do
not exist in this schema revision), so the rebuilt address has
`state = none` and `opening_hours = none`. -/
def db_get_place (db : PlaceDb) (pid : Str) : Except Error (Place × ReviewStatus) :=
  match db.places.find? (fun r => r.pid == pid) with
  | none => Except.error (Error.repo RepoError.NotFound)
  | some pr =>
    match db.revisions.find? (fun rr => rr.parent_rowid == pr.rowid && rr.rev == pr.current_rev) with
    | none => Except.error (Error.repo RepoError.NotFound)
    | some rr =>
      let created_byR : Except Error (Option Str) :=
        match rr.created_by with
        | none => Except.ok none
        | some uid =>
          match db.users.find? (fun u => u.1 == uid) with
          | none => Except.error (Error.repo RepoError.NotFound)
          | some u => Except.ok (some u.2)
      match created_byR with
      | Except.error er => Except.error er
      | Except.ok created_by =>
        match reviewStatusFromPrim rr.current_status with
        | none => Except.error Error.other
        | some st =>
          Except.ok
            ({ id := pid, license := pr.license, revision := rr.rev
               created := { at_ := rr.created_at, by_ := created_by }
               title := rr.title, description := rr.description
               location :=
                 { pos := (tryFromLatLngDeg rr.lat rr.lng).getD mapPointDefault
                   address := some
                     { street := rr.street, zip := rr.zip, city := rr.city
                       country := rr.country, state := none } }
               contact := some { email := rr.email, phone := rr.phone }
               opening_hours := none
               links := some
                 { homepage := rr.homepage, image := rr.image_url
                   image_href := rr.image_link_url }
               tags := (db.rev_tags.filter (fun tr => tr.parent_rowid == rr.rowid)).map
                 (fun tr => tr.tag) }, st)

/-- Modelled from the spec: `Category::merge_ids_into_tags` — the category
ids contribute to the tag list before normalization. -/
def merge_ids_into_tags (categories : List Str) (tags : List Str) : List Str :=
  categories ++ tags

/-- Modelled from the spec: `authorization::moderated_tag::authorize_editing`
(its module is not under src/).  Tags added or removed that are owned by
some organization require that organization's authority: with no
authenticated organization any such change fails with `OwnedTag`; an
authenticated organization authorizes its own tags (returning the org ids
whose owned tags were touched, for pending-authorization bookkeeping) and
any other owner's tag still fails. -/
def authorize_editing (orgs : List Organization) (old_tags new_tags : List Str)
    (org : Option Organization) : Except Error (List Str) :=
  let added := new_tags.filter (fun t => !old_tags.contains t)
  let removed := old_tags.filter (fun t => !new_tags.contains t)
  let changed := added ++ removed
  let owners := orgs.filter (fun o => changed.any (fun t => o.owned_tags.contains t))
  match org with
  | none =>
    if owners.isEmpty then Except.ok [] else Except.error (Error.parameter ParameterError.OwnedTag)
  | some o =>
    if owners.all (fun w => w.id == o.id) then Except.ok (owners.map (fun w => w.id))
    else Except.error (Error.parameter ParameterError.OwnedTag)

/-- Modelled from the spec: `parse_url_param` for places — permissive
(`Ok(None)` for the empty string, `Ok(Some(url))` otherwise; the spec
leaves the parser's exact acceptance open). -/
def parse_url_param_place (s : Str) : Except Error (Option Str) :=
  if s.isEmpty then Except.ok none else Except.ok (some s)

/-- Modelled from the spec: parsing opening hours (the parser is not under
src/); permissive. -/
def parse_opening_hours (s : Str) : Except Error Str := Except.ok s

/-- Modelled from the spec: `Place::validate` (not under src/; the spec
states no rejection condition for an already well-formed update). -/
def place_validate (_p : Place) : Except Error Unit := Except.ok ()

/-- The `Option`/`Result` transpose dance around `parse_url_param` in
`prepare_updated_place`: `None` stays `None`, otherwise the parse result
(itself an optional URL) is propagated. -/
def parse_opt_url (o : Option Str) : Except Error (Option Str) :=
  match o with
  | none => Except.ok none
  | some s => parse_url_param_place s

/-- `usecases::update_place::prepare_updated_place`
(src/src/core/usecases/update_place.rs).  Read-only: validates the
position, loads the stored place, enforces `old.revision + 1 = version`
(optimistic locking, failing with `InvalidVersion`), normalizes the tags,
authorizes owned-tag changes, parses the URLs and opening hours, and
assembles the new revision.  `now` stands for `Activity::now`. -/
def prepare_updated_place (db : PlaceDb) (place_id : Str) (e : UpdatePlace)
    (updated_by : Option Str) (now : ℤ) : Except Error Storable :=
  match tryFromLatLngDeg e.lat e.lng with
  | none => Except.error (Error.parameter ParameterError.InvalidPosition)
  | some pos =>
    let address : Address :=
      { street := e.street, zip := e.zip, city := e.city
        country := e.country, state := e.state }
    let address := if address.is_empty then none else some address
    match db_get_place db place_id with
    | Except.error er => Except.error er
    | Except.ok (old_place, review_status) =>
      let revision := e.version
      if old_place.revision + 1 ≠ revision then Except.error (Error.repo RepoError.InvalidVersion)
      else
        let last_authorized : AuthorizedRevision :=
          { revision := old_place.revision, review_status := some review_status }
        let license := old_place.license
        let old_tags := old_place.tags
        let new_tags := prepare_tag_list (merge_ids_into_tags e.categories e.tags)
        match authorize_editing db.orgs old_tags new_tags none with
        | Except.error er => Except.error er
        | Except.ok auth_org_ids =>
          match parse_opt_url e.homepage with
          | Except.error er => Except.error er
          | Except.ok homepage =>
            match parse_opt_url e.image_url with
            | Except.error er => Except.error er
            | Except.ok image =>
              match parse_opt_url e.image_link_url with
              | Except.error er => Except.error er
              | Except.ok image_href =>
                let links :=
                  if homepage.isSome || image.isSome || image_href.isSome then
                    some (Links.mk homepage image image_href)
                  else none
                let ohR : Except Error (Option Str) :=
                  match e.opening_hours with
                  | none => Except.ok none
                  | some s =>
                    match parse_opening_hours s with
                    | Except.error _ =>
                      Except.error (Error.parameter ParameterError.InvalidOpeningHours)
                    | Except.ok oh => Except.ok (some oh)
                match ohR with
                | Except.error er => Except.error er
                | Except.ok opening_hours =>
                  let place : Place :=
                    { id := place_id, license := license, revision := revision
                      created := { at_ := now, by_ := updated_by }
                      title := e.title, description := e.description
                      location := { pos := pos, address := address }
                      contact := some { email := e.email, phone := e.telephone }
                      opening_hours := opening_hours
                      links := links, tags := new_tags }
                  match place_validate place with
                  | Except.error er => Except.error er
                  | Except.ok _ =>
                    Except.ok
                      { place := place, auth_org_ids := auth_org_ids
                        last_authorized := last_authorized }

/-- The columns of a new `place_revision` row (`models::NewPlaceRevision`). -/
structure NewPlaceRevision where
  parent_rowid : ℤ
  rev : ℕ
  created_at : ℤ
  created_by : Option ℤ
  current_status : ℤ
  title : Str
  description : Str
  lat : ℚ
  lng : ℚ
  street : Option Str
  zip : Option Str
  city : Option Str
  country : Option Str
  email : Option Str
  phone : Option Str
  homepage : Option Str
  image_url : Option Str
  image_link_url : Option Str
  deriving DecidableEq, Repr

/-- `into_new_place_revision`
(src/src/infrastructure/db/sqlite/connection.rs).  For an initial revision
(`rev = 1`) inserts a fresh place row (failing like the SQL unique
constraint when the id already exists); otherwise requires the stored
row's `current_rev + 1` to equal the new revision — else `InvalidVersion` —
and advances `current_rev` by the conditional update
`WHERE rowid = r AND current_rev = old`.  Then resolves the creator and
assembles the revision columns with `current_status = Created`. -/
def into_new_place_revision (db : PlaceDb) (place : Place) :
    Except Error (PlaceDb × NewPlaceRevision × List Str) :=
  let parentR : Except Error (PlaceDb × ℤ) :=
    if place.revision = 1 then
      if db.places.any (fun r => r.pid == place.id) then Except.error Error.other
      else
        let rowid := db.next_rowid
        let db1 : PlaceDb :=
          { db with
            next_rowid := db.next_rowid + 1
            places := db.places ++
              [{ rowid := rowid, pid := place.id, license := place.license
                 current_rev := place.revision }] }
        Except.ok (db1, rowid)
    else
      match resolve_place_rowid db place.id with
      | Except.error er => Except.error er
      | Except.ok (rowid, revision) =>
        if revision + 1 ≠ place.revision then Except.error (Error.repo RepoError.InvalidVersion)
        else
          let db1 : PlaceDb :=
            { db with
              places := db.places.map (fun r =>
                if r.rowid == rowid && r.current_rev == revision then
                  { r with current_rev := place.revision }
                else r) }
          Except.ok (db1, rowid)
  match parentR with
  | Except.error er => Except.error er
  | Except.ok (db1, parent_rowid) =>
    let created_byR : Except Error (Option ℤ) :=
      match place.created.by_ with
      | none => Except.ok none
      | some em =>
        match resolve_user_by_email db1 em with
        | Except.error er => Except.error er
        | Except.ok uid => Except.ok (some uid)
    match created_byR with
    | Except.error er => Except.error er
    | Except.ok created_by =>
      let contact := place.contact.getD { email := none, phone := none }
      let address := (place.location.address).getD
        { street := none, zip := none, city := none, country := none, state := none }
      let links := place.links.getD { homepage := none, image := none, image_href := none }
      Except.ok (db1,
        { parent_rowid := parent_rowid, rev := place.revision
          created_at := place.created.at_, created_by := created_by
          current_status := ReviewStatus.created.toPrim
          title := place.title, description := place.description
          lat := place.location.pos.lat, lng := place.location.pos.lng
          street := address.street, zip := address.zip, city := address.city
          country := address.country
          email := contact.email, phone := contact.phone
          homepage := links.homepage, image_url := links.image
          image_link_url := links.image_href }, place.tags)

/-- `PlaceRepo::create_or_update_place` (sqlite): builds the new revision,
inserts the revision row, re-resolves its rowid, inserts the seed review
row (`rev = 1`, status inherited, comment `"created"`), and inserts the
revision-tag rows. -/
def create_or_update_place (db : PlaceDb) (place : Place) : Except Error PlaceDb :=
  match into_new_place_revision db place with
  | Except.error er => Except.error er
  | Except.ok (db1, new_place, tags) =>
    let revRowid := db1.next_rowid
    let db2 : PlaceDb :=
      { db1 with
        next_rowid := db1.next_rowid + 1
        revisions := db1.revisions ++
          [{ rowid := revRowid, parent_rowid := new_place.parent_rowid
             rev := new_place.rev, created_at := new_place.created_at
             created_by := new_place.created_by
             current_status := new_place.current_status
             title := new_place.title, description := new_place.description
             lat := new_place.lat, lng := new_place.lng
             street := new_place.street, zip := new_place.zip, city := new_place.city
             country := new_place.country, email := new_place.email
             phone := new_place.phone, homepage := new_place.homepage
             image_url := new_place.image_url
             image_link_url := new_place.image_link_url }] }
    match db2.revisions.find? (fun r =>
        r.parent_rowid == new_place.parent_rowid && r.rev == new_place.rev) with
    | none => Except.error (Error.repo RepoError.NotFound)
    | some revRow =>
      let db3 : PlaceDb :=
        { db2 with
          reviews := db2.reviews ++
            [{ parent_rowid := revRow.rowid, rev := 1
               created_at := new_place.created_at, created_by := new_place.created_by
               status := new_place.current_status, context := none
               comment := some "created".toList }]
          rev_tags := db2.rev_tags ++
            tags.map (fun t => { parent_rowid := revRow.rowid, tag := t }) }
      Except.ok db3

/-- `create_tag_if_it_does_not_exist` on the place store (`INSERT OR
IGNORE`). -/
def place_create_tag (db : PlaceDb) (t : Str) : PlaceDb :=
  if db.tags.contains t then db else { db with tags := db.tags ++ [t] }

/-- `update_place::store_updated_place`: create the tags, store the new
revision, record a pending authorization when organizations must still
decide, and load the place's ratings.  Returns the result together with
the (possibly partially) mutated store. -/
def store_updated_place (db : PlaceDb) (s : Storable) :
    Except Error (Place × List RatingRec) × PlaceDb :=
  let db1 := s.place.tags.foldl place_create_tag db
  match create_or_update_place db1 s.place with
  | Except.error er => (Except.error er, db1)
  | Except.ok db2 =>
    let db3 :=
      if s.auth_org_ids.isEmpty then db2
      else { db2 with pending_auths := db2.pending_auths ++
        [(s.auth_org_ids, s.place.id, s.place.created.at_)] }
    (Except.ok (s.place, db3.ratings.filter (fun r => r.place_id == s.place.id)), db3)

/-- The update flow: `prepare_updated_place` then `store_updated_place`
(as composed by the web layer and the tests).  A preparation failure
leaves the store untouched. -/
def update_place_flow (db : PlaceDb) (place_id : Str) (e : UpdatePlace)
    (updated_by : Option Str) (now : ℤ) :
    Except Error (Place × List RatingRec) × PlaceDb :=
  match prepare_updated_place db place_id e updated_by now with
  | Except.error er => (Except.error er, db)
  | Except.ok s => store_updated_place db s

/-- The revision rowids selected by `review_places`: current revisions of
the addressed places whose status differs from the new one (the join
`place_revision ⋈ place` on `parent_rowid = rowid ∧ rev = current_rev`). -/
def selectReviewRevIds (db : PlaceDb) (ids : List Str) (prim : ℤ) : List ℤ :=
  ((db.revisions.filter (fun rr =>
      db.places.any (fun pr =>
        rr.parent_rowid == pr.rowid && rr.rev == pr.current_rev && ids.contains pr.pid) &&
      rr.current_status != prim)).map (fun rr => rr.rowid))

/-- `SELECT max(rev) FROM place_revision_review WHERE parent_rowid = rid`. -/
def maxReviewRev (db : PlaceDb) (rid : ℤ) : Option ℕ :=
  ((db.reviews.filter (fun v => v.parent_rowid == rid)).map (fun v => v.rev)).max?

/-- The per-revision loop body of `review_places`: conditionally update the
status, and when a row was changed, append a review record with
`rev = max(rev) + 1` and the supplied context/comment, accumulating the
update count. -/
def review_places_loop (prim : ℤ) (changed_at : ℤ) (changed_by : Option ℤ)
    (context comment : Option Str) :
    List ℤ → PlaceDb → ℕ → Except Error (ℕ × PlaceDb)
  | [], db, acc => Except.ok (acc, db)
  | rid :: rest, db, acc =>
    let n := db.revisions.countP (fun r => r.rowid == rid && r.current_status != prim)
    let db1 : PlaceDb :=
      { db with revisions := db.revisions.map (fun r =>
          if r.rowid == rid && r.current_status != prim then { r with current_status := prim }
          else r) }
    if 0 < n then
      match maxReviewRev db1 rid with
      | none => Except.error (Error.repo RepoError.NotFound)
      | some m =>
        review_places_loop prim changed_at changed_by context comment rest
          { db1 with reviews := db1.reviews ++
            [{ parent_rowid := rid, rev := m + 1, created_at := changed_at
               created_by := changed_by, status := prim
               context := context, comment := comment }] } (acc + n)
    else review_places_loop prim changed_at changed_by context comment rest db1 acc

/-- `PlaceRepo::review_places` (sqlite): select the current revisions of
the addressed places whose status differs, resolve the acting user, then
run the update/append loop; returns the number of changed rows and the
updated store. -/
def review_places (db : PlaceDb) (ids : List Str) (status : ReviewStatus)
    (log : ActivityLog) : Except Error (ℕ × PlaceDb) :=
  let rev_ids := selectReviewRevIds db ids status.toPrim
  let changed_byR : Except Error (Option ℤ) :=
    match log.activity.by_ with
    | none => Except.ok none
    | some em =>
      match resolve_user_by_email db em with
      | Except.error er => Except.error er
      | Except.ok uid => Except.ok (some uid)
  match changed_byR with
  | Except.error er => Except.error er
  | Except.ok changed_by =>
    review_places_loop status.toPrim log.activity.at_ changed_by log.context log.comment
      rev_ids db 0

/-! ### Concrete fixtures used by the claim witnesses and counterexamples -/

/-- A normalized tag: non-empty, trimmed, no ASCII space, no `'#'`. -/
def NormalTag (t : Str) : Prop :=
  t ≠ [] ∧ trim t = t ∧ (∀ c ∈ t, c ≠ ' ') ∧ ∀ c ∈ t, c ≠ '#'

/-- The C7 fixture: a subscription whose bbox contains the point (5, 5). -/
def c7sub : BboxSubscription :=
  { id := "sub1".toList, user_email := "alice@example.org".toList
    bbox := { south_west := ⟨0, 0⟩, north_east := ⟨10, 10⟩ } }

/-- The C7 fixture: an event located at (5, 5). -/
def c7event : Event :=
  { id := "ev1".toList, title := "fair".toList, start := 0, ev_end := none
    description := none
    location := some { pos := ⟨5, 5⟩, address := none }
    contact := none, homepage := none, tags := [], created_by := none
    registration := none, organizer := none, archived := none }

/-- The C8 fixture: an unconfirmed guest user. -/
def c8user : User :=
  { id := "u1".toList, username := "alice".toList, email := "a@foo.bar".toList
    password := "secret".toList, email_confirmed := false, role := Role.guest }

/-- The C8 fixture: the store holding the user and a `UserToken` whose
nonce is `"n1"` and which expired at time 100. -/
def c8db : UserDb :=
  { users := [c8user]
    user_tokens := [{ email_nonce := { email := "a@foo.bar".toList, nonce := "n1".toList }
                      expires_at := 100 }] }

/-- The C9 fixture: an empty event store. -/
def c9db : EventDb := { orgs := [], users := [], tags := [], events := [] }

/-- The C9 fixture: a creation request with the given registration,
contact email, contact telephone, and homepage; every other optional field
absent. -/
def c9request (registration email telephone homepage : Option Str) : NewEvent :=
  { title := "event".toList, description := none, start := 0, ev_end := none
    lat := none, lng := none, street := none, zip := none, city := none
    country := none, email := email, telephone := telephone, homepage := homepage
    tags := none, created_by := none, token := none
    registration := registration, organizer := none }

/-- The C9 fixture: the event built from a successful `c9request`. -/
def c9event (id : Str) (contact : Option EventContact) (homepage : Option Str)
    (registration : Option RegistrationType) : Event :=
  { id := id, title := "event".toList, start := 0, ev_end := none
    description := none, location := none, contact := contact
    homepage := homepage, tags := [], created_by := none
    registration := registration, organizer := none, archived := none }

/-- The C10 fixture: a store holding two events with starts 5 and 3 and no
users. -/
def c10db : EventDb :=
  { orgs := [], users := []
    tags := []
    events :=
      [{ id := "e1".toList, title := "a".toList, start := 5, ev_end := none
         description := none, location := none, contact := none, homepage := none
         tags := [], created_by := none, registration := none, organizer := none
         archived := none },
       { id := "e2".toList, title := "b".toList, start := 3, ev_end := none
         description := none, location := none, contact := none, homepage := none
         tags := [], created_by := none, registration := none, organizer := none
         archived := none }] }

/-- The C1 fixture: one place at revision 3 with one stored revision row
and its seed review. -/
def c1db : PlaceDb :=
  { next_rowid := 100
    places := [{ rowid := 1, pid := "p1".toList, license := "CC0".toList, current_rev := 3 }]
    revisions := [{ rowid := 10, parent_rowid := 1, rev := 3, created_at := 0
                    created_by := none, current_status := 0, title := "t".toList
                    description := "d".toList, lat := 1, lng := 2, street := none
                    zip := none, city := none, country := none, email := none
                    phone := none, homepage := none, image_url := none
                    image_link_url := none }]
    reviews := [{ parent_rowid := 10, rev := 1, created_at := 0, created_by := none
                  status := 0, context := none, comment := some "created".toList }]
    rev_tags := [], tags := [], users := [], orgs := [], pending_auths := []
    ratings := [] }

/-- The C1 fixture: the domain place `db_get_place` rebuilds from `c1db`. -/
def c1old : Place :=
  { id := "p1".toList, license := "CC0".toList, revision := 3
    created := { at_ := 0, by_ := none }, title := "t".toList
    description := "d".toList
    location := { pos := ⟨1, 2⟩
                  address := some { street := none, zip := none, city := none
                                    country := none, state := none } }
    contact := some { email := none, phone := none }
    opening_hours := none
    links := some { homepage := none, image := none, image_href := none }
    tags := [] }

/-- The C1 fixture: an update request carrying the given version. -/
def c1upd (v : ℕ) : UpdatePlace :=
  { version := v, title := "foo".toList, description := "bar".toList, lat := 0, lng := 0
    street := none, zip := none, city := none, country := none, state := none
    email := none, telephone := none, homepage := none, opening_hours := none
    categories := [], tags := ["vegan".toList], image_url := none
    image_link_url := none }

/-! ## Theorems -/

/-! Helper lemmas: the lexicographic order. -/

theorem strLe_total : ∀ s t : Str, strLe s t = true ∨ strLe t s = true
  | [], _ => Or.inl rfl
  | _ :: _, [] => Or.inr rfl
  | a :: s, b :: t => by
    rcases lt_trichotomy a b with h | h | h
    · left; simp [strLe, h]
    · subst h
      rcases strLe_total s t with h2 | h2
      · left; simp [strLe, lt_irrefl, h2]
      · right; simp [strLe, lt_irrefl, h2]
    · right; simp [strLe, h]

theorem strLe_trans : ∀ s t u : Str, strLe s t = true → strLe t u = true → strLe s u = true
  | [], _, _, _, _ => rfl
  | a :: s, [], u, h, _ => by simp [strLe] at h
  | a :: s, b :: t, [], _, h2 => by simp [strLe] at h2
  | a :: s, b :: t, c :: u, h1, h2 => by
    rcases lt_trichotomy a b with hab | hab | hab
    · rcases lt_trichotomy b c with hbc | hbc | hbc
      · simp [strLe, lt_trans hab hbc]
      · subst hbc; simp [strLe, hab]
      · simp [strLe, hbc, not_lt.2 hbc.le] at h2
    · subst hab
      rcases lt_trichotomy a c with hac | hac | hac
      · simp [strLe, hac]
      · subst hac
        simp only [strLe, lt_irrefl, if_false] at h1 h2 ⊢
        exact strLe_trans s t u h1 h2
      · simp [strLe, hac, not_lt.2 hac.le] at h2
    · simp [strLe, hab, not_lt.2 hab.le] at h1

theorem strLe_antisymm : ∀ s t : Str, strLe s t = true → strLe t s = true → s = t
  | [], [], _, _ => rfl
  | [], _ :: _, _, h2 => by simp [strLe] at h2
  | _ :: _, [], h1, _ => by simp [strLe] at h1
  | a :: s, b :: t, h1, h2 => by
    rcases lt_trichotomy a b with hab | hab | hab
    · simp [strLe, hab, not_lt.2 hab.le] at h2
    · subst hab
      simp only [strLe, lt_irrefl, if_false] at h1 h2
      exact congrArg (a :: ·) (strLe_antisymm s t h1 h2)
    · simp [strLe, hab, not_lt.2 hab.le] at h1

instance : IsTotal Str StrLe := ⟨fun s t => strLe_total s t⟩

instance : IsTrans Str StrLe := ⟨fun s t u => strLe_trans s t u⟩

instance : IsTrans Str StrLt :=
  ⟨fun s t u h1 h2 =>
    ⟨strLe_trans s t u h1.1 h2.1, fun he => by
      subst he
      exact h2.2 (strLe_antisymm t s h2.1 h1.1 ▸ rfl)⟩⟩

/-! Helper lemmas: `dedupAdj`. -/

theorem dedupAdj_sublist {α : Type} [DecidableEq α] : ∀ l : List α, (dedupAdj l).Sublist l
  | [] => List.Sublist.refl _
  | [_] => List.Sublist.refl _
  | a :: b :: l => by
    rw [dedupAdj]
    split
    · exact (dedupAdj_sublist (b :: l)).cons _
    · exact (dedupAdj_sublist (b :: l)).cons₂ _

theorem dedupAdj_cons_head {α : Type} [DecidableEq α] :
    ∀ (b : α) (l : List α), ∃ r, dedupAdj (b :: l) = b :: r
  | _, [] => ⟨[], rfl⟩
  | b, c :: l => by
    rw [dedupAdj]
    split
    · rename_i h
      subst h
      exact dedupAdj_cons_head b l
    · exact ⟨dedupAdj (c :: l), rfl⟩

theorem dedupAdj_chain {α : Type} [DecidableEq α] :
    ∀ l : List α, List.Chain' (fun a b => a ≠ b) (dedupAdj l)
  | [] => List.chain'_nil
  | [a] => List.chain'_singleton a
  | a :: b :: l => by
    rw [dedupAdj]
    split
    · exact dedupAdj_chain (b :: l)
    · rename_i h
      obtain ⟨r, hr⟩ := dedupAdj_cons_head b l
      rw [hr, List.chain'_cons]
      exact ⟨h, hr ▸ dedupAdj_chain (b :: l)⟩

theorem dedupAdj_eq_self {α : Type} [DecidableEq α] :
    ∀ l : List α, List.Chain' (fun a b => a ≠ b) l → dedupAdj l = l
  | [], _ => rfl
  | [_], _ => rfl
  | a :: b :: l, h => by
    rw [List.chain'_cons] at h
    rw [dedupAdj, if_neg h.1, dedupAdj_eq_self (b :: l) h.2]

/-! Helper lemmas: trimming. -/

theorem dropWhile_idem (p : Char → Bool) (l : Str) :
    (l.dropWhile p).dropWhile p = l.dropWhile p := by
  induction l with
  | nil => rfl
  | cons a l ih =>
    by_cases h : p a
    · simp [List.dropWhile_cons, h, ih]
    · simp [List.dropWhile_cons, h]

theorem trimStart_head (s : Str) :
    trimStart s = [] ∨ ∃ c r, trimStart s = c :: r ∧ isRustWhitespace c = false := by
  have h := List.head?_dropWhile_not isRustWhitespace s
  unfold trimStart
  cases he : (s.dropWhile isRustWhitespace).head? with
  | none => exact Or.inl (List.head?_eq_none_iff.mp he)
  | some c =>
    right
    obtain ⟨r, hr⟩ := List.head?_eq_some_iff.mp he
    exact ⟨c, r, hr, by rw [he] at h; exact h⟩

theorem trimEnd_nil : trimEnd [] = [] := rfl

theorem trimEnd_idem (s : Str) : trimEnd (trimEnd s) = trimEnd s := by
  unfold trimEnd
  rw [List.reverse_reverse, dropWhile_idem]

theorem trimEnd_cons_of_not_ws (c : Char) (r : Str) (h : isRustWhitespace c = false) :
    ∃ r2, trimEnd (c :: r) = c :: r2 := by
  unfold trimEnd
  rw [List.reverse_cons, List.dropWhile_append]
  split
  · rw [List.dropWhile_cons, h]
    exact ⟨[], by simp⟩
  · exact ⟨(r.reverse.dropWhile isRustWhitespace).reverse, by simp⟩

theorem trimStart_eq_self_of_head (c : Char) (r : Str) (h : isRustWhitespace c = false) :
    trimStart (c :: r) = c :: r := by
  unfold trimStart
  rw [List.dropWhile_cons, h]
  simp

theorem trim_trim (s : Str) : trim (trim s) = trim s := by
  unfold trim
  rcases trimStart_head s with h | ⟨c, r, h, hc⟩
  · rw [h, trimEnd_nil]
    show trimEnd (trimStart []) = trimEnd []
    rfl
  · rw [h]
    obtain ⟨r2, hr2⟩ := trimEnd_cons_of_not_ws c r hc
    rw [hr2, trimStart_eq_self_of_head c r2 hc, ← hr2, trimEnd_idem]

theorem mem_trimStart {c : Char} {s : Str} (h : c ∈ trimStart s) : c ∈ s :=
  (List.dropWhile_sublist _).mem h

theorem mem_trimEnd {c : Char} {s : Str} (h : c ∈ trimEnd s) : c ∈ s := by
  unfold trimEnd at h
  rw [List.mem_reverse] at h
  exact List.mem_reverse.mp ((List.dropWhile_sublist _).mem h)

theorem mem_trim {c : Char} {s : Str} (h : c ∈ trim s) : c ∈ s :=
  mem_trimStart (mem_trimEnd h)

/-! Helper lemmas: splitting. -/

theorem splitPredAux_ne_nil (p : Char → Bool) : ∀ s : Str, splitPredAux p s ≠ []
  | [] => by simp [splitPredAux]
  | c :: rest => by
    rw [splitPredAux]
    split
    · simp
    · cases he : splitPredAux p rest with
      | nil => simp
      | cons w ws => simp [he]

theorem splitPredAux_no_sep (p : Char → Bool) :
    ∀ (s : Str) (w : Str), w ∈ splitPredAux p s → ∀ c ∈ w, p c = false
  | [], w, hw, c, hc => by
    simp [splitPredAux] at hw
    subst hw
    simp at hc
  | a :: rest, w, hw, c, hc => by
    rw [splitPredAux] at hw
    by_cases ha : p a
    · rw [if_pos ha] at hw
      rcases List.mem_cons.mp hw with h | h
      · subst h; simp at hc
      · exact splitPredAux_no_sep p rest w h c hc
    · rw [if_neg ha] at hw
      cases he : splitPredAux p rest with
      | nil => exact absurd he (splitPredAux_ne_nil p rest)
      | cons v vs =>
        rw [he] at hw
        rcases List.mem_cons.mp hw with h | h
        · subst h
          rcases List.mem_cons.mp hc with h2 | h2
          · subst h2
            simpa using ha
          · exact splitPredAux_no_sep p rest v (he ▸ List.mem_cons_self v vs) c h2
        · exact splitPredAux_no_sep p rest w (he ▸ List.mem_cons_of_mem v h) c hc

theorem splitPredAux_eq_self (p : Char → Bool) :
    ∀ s : Str, (∀ c ∈ s, p c = false) → splitPredAux p s = [s]
  | [], _ => rfl
  | a :: rest, h => by
    rw [splitPredAux, if_neg (by simp [h a (List.mem_cons_self a rest)]),
      splitPredAux_eq_self p rest (fun c hc => h c (List.mem_cons_of_mem a hc))]

/-! Helper lemmas: normalized tags and the second pass of
`prepare_tag_list`. -/

theorem nonEmptyTrimmed_eq_some {u t : Str} (h : nonEmptyTrimmed u = some t) :
    t = trim u ∧ t ≠ [] := by
  unfold nonEmptyTrimmed at h
  by_cases he : (trim u).isEmpty
  · simp [he] at h
  · simp only [he] at h
    simp only [Bool.false_eq_true, if_false, Option.some.injEq] at h
    subst h
    exact ⟨rfl, by simpa using he⟩

theorem nonEmptyTrimmed_fixed {t : Str} (h1 : trim t = t) (h2 : t ≠ []) :
    nonEmptyTrimmed t = some t := by
  unfold nonEmptyTrimmed
  rw [h1]
  simp [h2]

theorem mem_prepare_tag_list_normal {tags : List Str} {t : Str}
    (h : t ∈ prepare_tag_list tags) : NormalTag t := by
  unfold prepare_tag_list at h
  have h1 : t ∈ List.insertionSort StrLe
      (((tags.filterMap nonEmptyTrimmed).map splitOnSpace).flatten.map removeHash
        |>.filterMap nonEmptyTrimmed) :=
    (dedupAdj_sublist _).mem h
  rw [(List.perm_insertionSort StrLe _).mem_iff, List.mem_filterMap] at h1
  obtain ⟨u, hu, hut⟩ := h1
  obtain ⟨hteq, htne⟩ := nonEmptyTrimmed_eq_some hut
  rw [List.mem_map] at hu
  obtain ⟨w, hw, hwu⟩ := hu
  rw [List.mem_flatten] at hw
  obtain ⟨ws, hws, hwmem⟩ := hw
  rw [List.mem_map] at hws
  obtain ⟨v, _, hv⟩ := hws
  refine ⟨htne, by rw [hteq, trim_trim], ?_, ?_⟩
  · intro c hc hcsp
    have hcu : c ∈ u := mem_trim (hteq ▸ hc)
    have hcw : c ∈ w := by
      rw [← hwu] at hcu
      unfold removeHash at hcu
      exact List.mem_of_mem_filter hcu
    have hmem2 : w ∈ splitPredAux (fun c => c == ' ') v := by
      rw [splitOnSpace] at hv
      rw [← hv] at hwmem
      exact hwmem
    have := splitPredAux_no_sep (fun c => c == ' ') v w hmem2 c hcw
    rw [hcsp] at this
    simp at this
  · intro c hc hch
    have hcu : c ∈ u := mem_trim (hteq ▸ hc)
    rw [← hwu] at hcu
    unfold removeHash at hcu
    rw [List.mem_filter] at hcu
    rw [hch] at hcu
    simp at hcu

theorem prepare_tag_list_sorted (tags : List Str) :
    List.Sorted StrLe (prepare_tag_list tags) := by
  unfold prepare_tag_list
  exact List.Pairwise.sublist (dedupAdj_sublist _) (List.sorted_insertionSort StrLe _)

theorem chain_conj {α : Type} {R S : α → α → Prop} :
    ∀ {l : List α}, List.Chain' R l → List.Chain' S l →
      List.Chain' (fun a b => R a b ∧ S a b) l
  | [], _, _ => List.chain'_nil
  | [a], _, _ => List.chain'_singleton a
  | _ :: b :: l, hR, hS => by
    rw [List.chain'_cons] at hR hS ⊢
    exact ⟨⟨hR.1, hS.1⟩, chain_conj hR.2 hS.2⟩

theorem prepare_tag_list_chain_ne (tags : List Str) :
    List.Chain' (fun a b : Str => a ≠ b) (prepare_tag_list tags) := by
  unfold prepare_tag_list
  exact dedupAdj_chain _

theorem prepare_tag_list_sorted_lt (tags : List Str) :
    List.Pairwise StrLt (prepare_tag_list tags) := by
  have hchain : List.Chain' StrLt (prepare_tag_list tags) := by
    have h1 : List.Chain' StrLe (prepare_tag_list tags) :=
      (prepare_tag_list_sorted tags).chain'
    have h2 := prepare_tag_list_chain_ne tags
    exact (chain_conj h1 h2).imp (fun a b h => ⟨h.1, h.2⟩)
  exact List.chain'_iff_pairwise.mp hchain

theorem prepare_tag_list_nodup (tags : List Str) : (prepare_tag_list tags).Nodup :=
  (prepare_tag_list_sorted_lt tags).imp (fun h => h.2)

theorem filterMap_nonEmptyTrimmed_fixed {l : List Str}
    (h : ∀ t ∈ l, trim t = t ∧ t ≠ []) : l.filterMap nonEmptyTrimmed = l := by
  induction l with
  | nil => rfl
  | cons a l ih =>
    rw [List.filterMap_cons,
      nonEmptyTrimmed_fixed (h a (List.mem_cons_self a l)).1 (h a (List.mem_cons_self a l)).2,
      ih (fun t ht => h t (List.mem_cons_of_mem a ht))]

theorem flatten_map_singleton {α : Type} : ∀ l : List α, (l.map (fun t => [t])).flatten = l
  | [] => rfl
  | a :: l => by rw [List.map_cons, List.flatten_cons, flatten_map_singleton l]; rfl

theorem prepare_tag_list_eq_self {l : List Str}
    (hnorm : ∀ t ∈ l, NormalTag t) (hsorted : List.Sorted StrLe l)
    (hchain : List.Chain' (fun a b : Str => a ≠ b) l) :
    prepare_tag_list l = l := by
  have h1 : l.filterMap nonEmptyTrimmed = l :=
    filterMap_nonEmptyTrimmed_fixed (fun t ht => ⟨(hnorm t ht).2.1, (hnorm t ht).1⟩)
  have h2 : (l.map splitOnSpace).flatten = l := by
    have hmap : l.map splitOnSpace = l.map (fun t => [t]) := by
      apply List.map_congr_left
      intro t ht
      exact splitPredAux_eq_self _ t (fun c hc => by
        have := (hnorm t ht).2.2.1 c hc
        simpa using this)
    rw [hmap, flatten_map_singleton]
  have h3 : l.map removeHash = l := by
    have hid : l.map removeHash = l.map id := by
      apply List.map_congr_left
      intro t ht
      show removeHash t = t
      exact List.filter_eq_self.mpr (fun c hc => by
        have := (hnorm t ht).2.2.2 c hc
        simpa using this)
    simpa using hid
  show dedupAdj (List.insertionSort StrLe
    ((((l.filterMap nonEmptyTrimmed).map splitOnSpace).flatten.map removeHash).filterMap
      nonEmptyTrimmed)) = l
  rw [h1, h2, h3, h1, List.Sorted.insertionSort_eq hsorted, dedupAdj_eq_self l hchain]

theorem prepare_tag_list_idem (tags : List Str) :
    prepare_tag_list (prepare_tag_list tags) = prepare_tag_list tags :=
  prepare_tag_list_eq_self
    (fun _ ht => mem_prepare_tag_list_normal ht)
    (prepare_tag_list_sorted tags)
    (prepare_tag_list_chain_ne tags)

/-! Helpers for the f32 threshold model. -/

theorem log2Fuel_spec : ∀ (fuel n : ℕ), 1 ≤ n → n ≤ fuel →
    2 ^ log2Fuel fuel n ≤ n ∧ n < 2 ^ (log2Fuel fuel n + 1)
  | 0, n, h1, h2 => by omega
  | fuel + 1, n, h1, h2 => by
    rw [log2Fuel]
    by_cases hn : n < 2
    · rw [if_pos hn]
      constructor <;> simp <;> omega
    · rw [if_neg hn]
      have hrec := log2Fuel_spec fuel (n / 2) (by omega) (by omega)
      constructor
      · rw [pow_succ]
        calc 2 ^ log2Fuel fuel (n / 2) * 2 ≤ n / 2 * 2 :=
              Nat.mul_le_mul_right 2 hrec.1
        _ ≤ n := by omega
      · have h3 : n / 2 + 1 ≤ 2 ^ (log2Fuel fuel (n / 2) + 1) := hrec.2
        have h4 : n < (n / 2 + 1) * 2 := by omega
        calc n < (n / 2 + 1) * 2 := h4
        _ ≤ 2 ^ (log2Fuel fuel (n / 2) + 1) * 2 := Nat.mul_le_mul_right 2 h3
        _ = 2 ^ (log2Fuel fuel (n / 2) + 1 + 1) := (pow_succ 2 _).symm

theorem natLog2_spec {n : ℕ} (h : 1 ≤ n) :
    2 ^ natLog2 n ≤ n ∧ n < 2 ^ (natLog2 n + 1) :=
  log2Fuel_spec n n h (le_refl n)

theorem rne24_lower {a : ℕ} (h : 2 ^ 25 ≤ a) : 2 ^ 25 ≤ rne24 a := by
  unfold rne24
  have h24 : ¬ a < 2 ^ 24 := by
    push_neg
    calc (2:ℕ) ^ 24 ≤ 2 ^ 25 := by norm_num
    _ ≤ a := h
  rw [if_neg h24]
  have hspec := natLog2_spec (n := a) (by omega)
  have hb : 25 ≤ natLog2 a := by
    by_contra hcon
    push_neg at hcon
    have : a < 2 ^ 25 := lt_of_lt_of_le hspec.2 (Nat.pow_le_pow_right (by norm_num) (by omega))
    omega
  have hq : 2 ^ 23 ≤ a / 2 ^ (natLog2 a - 23) := by
    have h2 : 2 ^ natLog2 a / 2 ^ (natLog2 a - 23) = 2 ^ 23 := by
      rw [Nat.pow_div (by omega) (by norm_num)]
      congr 1
      omega
    calc 2 ^ 23 = 2 ^ natLog2 a / 2 ^ (natLog2 a - 23) := h2.symm
    _ ≤ a / 2 ^ (natLog2 a - 23) := Nat.div_le_div_right hspec.1
  have hval : 2 ^ 25 ≤ a / 2 ^ (natLog2 a - 23) * 2 ^ (natLog2 a - 23) := by
    calc (2:ℕ) ^ 25 ≤ 2 ^ 23 * 2 ^ (natLog2 a - 23) := by
          rw [← pow_add]
          exact Nat.pow_le_pow_right (by norm_num) (by omega)
    _ ≤ a / 2 ^ (natLog2 a - 23) * 2 ^ (natLog2 a - 23) :=
          Nat.mul_le_mul_right _ hq
  dsimp only
  split
  · calc (2:ℕ) ^ 25 ≤ a / 2 ^ (natLog2 a - 23) * 2 ^ (natLog2 a - 23) := hval
    _ ≤ (a / 2 ^ (natLog2 a - 23) + 1) * 2 ^ (natLog2 a - 23) :=
        Nat.mul_le_mul_right _ (Nat.le_succ _)
  · exact hval

theorem f32MulAddTrunc_pos (c n : ℕ) : 1 ≤ f32MulAddTrunc c n := by
  unfold f32MulAddTrunc
  have h := rne24_lower (a := rne24 (rne24 n * c) + 2 ^ 25) (by omega)
  exact Nat.one_le_div_iff (by norm_num) |>.mpr h

theorem f32MulAddTrunc_zero (n : ℕ) : f32MulAddTrunc 0 n = 1 := by
  unfold f32MulAddTrunc
  rw [mul_zero]
  have h0 : rne24 0 = 0 := by norm_num [rne24]
  rw [h0, zero_add]
  have h1 : rne24 (2 ^ 25) = 2 ^ 25 := by decide
  rw [h1]
  omega

/-! Claim theorems C6, C3, C4. -/

/-- Claim C6, counterexample: the claim asserts every tag returned by
`prepare_tag_list` contains no whitespace, but a tag with an interior tab
survives normalization unchanged (only the ASCII space is a separator). -/
theorem C6_counterexample :
    prepare_tag_list [['a', '\t', 'b']] = [['a', '\t', 'b']] ∧
      ∃ c ∈ (['a', '\t', 'b'] : Str), isRustWhitespace c = true :=
  ⟨by decide, ⟨'\t', by decide, by decide⟩⟩

/-- Claim C6 (amended): every tag returned by `prepare_tag_list` is
non-empty, trimmed, free of ASCII spaces and of `'#'` (interior
non-space whitespace may remain); the list is lexicographically sorted and
duplicate-free; and `prepare_tag_list` is idempotent. -/
theorem C6_prepare_tag_list_normalized (tags : List Str) :
    (∀ t ∈ prepare_tag_list tags,
        t ≠ [] ∧ trim t = t ∧ (∀ c ∈ t, c ≠ ' ') ∧ ∀ c ∈ t, c ≠ '#') ∧
      List.Sorted StrLe (prepare_tag_list tags) ∧
      (prepare_tag_list tags).Nodup ∧
      prepare_tag_list (prepare_tag_list tags) = prepare_tag_list tags :=
  ⟨fun _ ht => mem_prepare_tag_list_normal ht, prepare_tag_list_sorted tags,
   prepare_tag_list_nodup tags, prepare_tag_list_idem tags⟩

/-- Claim C3, counterexample: two places at the same position whose titles
are at (true, code-point) Levenshtein distance 5 = ⌈11·0.3⌉+1, the claimed
`SimilarChars` bound, yet the detector reports no duplicate at all: the
source truncates `(11 as f32)·0.3+1.0` to 4 and its own distance exceeds
it. -/
theorem C3_counterexample :
    specLevenshtein "abcdefghijk".toList "aXcXeXgXiXk".toList ≤
        specSimilarCharsThreshold
          (min "abcdefghijk".toList.length "aXcXeXgXiXk".toList.length) ∧
      is_duplicate true "abcdefghijk".toList "aXcXeXgXiXk".toList = none :=
  ⟨by decide, by decide⟩

/-- Claim C3 (amended): within the proximity bound, the detector reports
`SimilarChars` whenever the source's own distance (a Levenshtein variant
whose substitution costs are read one position ahead, on a table sized by
the UTF-8 byte lengths) is at most `((min(len1,len2) as f32)·0.3f32+1.0)
as usize` on byte lengths. -/
theorem C3_similar_chars (t1 t2 : Str) (close : Bool) (hclose : close = true)
    (h : levenshtein_distance t1 t2 ≤
      f32MulAddTrunc percent03 (min (byteLen t1) (byteLen t2))) :
    is_duplicate close t1 t2 = some DuplicateType.SimilarChars := by
  subst hclose
  unfold is_duplicate similar_title levenshtein_distance_small
  simp [h]

/-- Witness for `C3_similar_chars` at two equal two-byte titles. -/
theorem C3_similar_chars_witness :
    is_duplicate true "ab".toList "ab".toList = some DuplicateType.SimilarChars :=
  C3_similar_chars _ _ true rfl (by decide)

/-- Claim C4, counterexample: titles `"hello world"` and `"world hello"`
have identical token sets (so the claimed `SimilarWords` predicate holds)
and are far apart in Levenshtein distance (so character similarity fails),
yet the detector reports `SimilarChars` — the `SimilarChars` branch also
fires on exact word-set agreement, so `SimilarWords` is not reported
exactly when the word predicate holds. -/
theorem C4_counterexample :
    specSimilarWords "hello world".toList "world hello".toList = true ∧
      specSimilarCharsThreshold
          (min "hello world".toList.length "world hello".toList.length) <
        specLevenshtein "hello world".toList "world hello".toList ∧
      is_duplicate true "hello world".toList "world hello".toList =
        some DuplicateType.SimilarChars :=
  ⟨by decide, by decide, by decide⟩

/-- Claim C4 (amended): within the proximity bound, `SimilarWords` is
reported exactly when at most 2 words differ (`k = 2`) and the
`SimilarChars` branch does not fire — that branch fires when the source's
distance is within its truncated-f32 byte-length threshold or when the
word sets agree exactly (`k = 0`); in particular whenever both branch
predicates hold the report is `SimilarChars`, never `SimilarWords`. -/
theorem C4_similar_words (t1 t2 : Str) (close : Bool) (hclose : close = true) :
    is_duplicate close t1 t2 = some DuplicateType.SimilarWords ↔
      words_equal_except_k_words t1 t2 2 = true ∧
        levenshtein_distance_small t1 t2
          (f32MulAddTrunc percent03 (min (byteLen t1) (byteLen t2))) = false ∧
        words_equal_except_k_words t1 t2 0 = false := by
  subst hclose
  by_cases h1 : similar_title t1 t2 percent03 0 = true
  · unfold is_duplicate
    rw [h1]
    have h2 := h1
    unfold similar_title at h2
    rw [Bool.or_eq_true] at h2
    simp only [Bool.true_and, if_true]
    constructor
    · intro h
      exact absurd h (by simp)
    · rintro ⟨_, hlev, hwords⟩
      rcases h2 with h2 | h2
      · rw [hlev] at h2
        exact absurd h2 (by simp)
      · rw [hwords] at h2
        exact absurd h2 (by simp)
  · have h1f : similar_title t1 t2 percent03 0 = false := by
      rwa [Bool.not_eq_true] at h1
    have hboth : levenshtein_distance_small t1 t2
        (f32MulAddTrunc percent03 (min (byteLen t1) (byteLen t2))) = false ∧
        words_equal_except_k_words t1 t2 0 = false := by
      have h2 := h1f
      unfold similar_title at h2
      rw [Bool.or_eq_false_iff] at h2
      exact h2
    have hlev1 : levenshtein_distance_small t1 t2
        (f32MulAddTrunc 0 (min (byteLen t1) (byteLen t2))) = false := by
      rw [f32MulAddTrunc_zero]
      unfold levenshtein_distance_small
      rw [decide_eq_false_iff_not]
      intro hle
      have h3 : levenshtein_distance t1 t2 ≤
          f32MulAddTrunc percent03 (min (byteLen t1) (byteLen t2)) :=
        le_trans hle (f32MulAddTrunc_pos _ _)
      have h4 : levenshtein_distance_small t1 t2
          (f32MulAddTrunc percent03 (min (byteLen t1) (byteLen t2))) = true :=
        decide_eq_true h3
      rw [hboth.1] at h4
      exact Bool.false_ne_true h4
    have hdup : is_duplicate true t1 t2 =
        (if words_equal_except_k_words t1 t2 2 = true
         then some DuplicateType.SimilarWords else none) := by
      unfold is_duplicate
      rw [h1f]
      unfold similar_title
      rw [hlev1]
      simp only [Bool.false_and, Bool.false_or, Bool.and_true, if_neg Bool.false_ne_true]
    rw [hdup]
    by_cases hw : words_equal_except_k_words t1 t2 2 = true
    · rw [if_pos hw]
      simp [hw, hboth.1, hboth.2]
    · rw [if_neg hw]
      simp only [iff_iff_implies_and_implies]
      constructor
      · intro h
        exact absurd h (by simp)
      · rintro ⟨hw2, _, _⟩
        exact absurd hw2 hw

/-- Witness for `C4_similar_words`: two three-word titles differing in two
words are reported as `SimilarWords`. -/
theorem C4_similar_words_witness :
    is_duplicate true "aa bb cc".toList "aa xx yy".toList =
      some DuplicateType.SimilarWords :=
  (C4_similar_words _ _ true rfl).mpr ⟨by decide, by decide, by decide⟩

/-! Claim theorems C5, C7. -/

/-- Claim C5 (confirmed): for any index result, the search post-processing
returns only entries inside the requested bbox as visible, only entries
outside it as invisible, at most `MAX_INVISIBLE_RESULTS` invisible entries,
and both lists ordered by descending average rating. -/
theorem C5_search_contract (entries : List Entry) (ratings : Str → ℚ) (bbox : Bbox) :
    (∀ e ∈ (search entries ratings bbox).1, entryInBbox e bbox = true) ∧
      (∀ e ∈ (search entries ratings bbox).2, entryInBbox e bbox = false) ∧
      (search entries ratings bbox).2.length ≤ MAX_INVISIBLE_RESULTS ∧
      List.Pairwise (fun a b => ratings b.id ≤ ratings a.id)
        (search entries ratings bbox).1 ∧
      List.Pairwise (fun a b => ratings b.id ≤ ratings a.id)
        (search entries ratings bbox).2 := by
  haveI htot : IsTotal Entry (fun a b => ratings b.id ≤ ratings a.id) :=
    ⟨fun a b => le_total (ratings b.id) (ratings a.id)⟩
  haveI htr : IsTrans Entry (fun a b => ratings b.id ≤ ratings a.id) :=
    ⟨fun _ _ _ h1 h2 => le_trans h2 h1⟩
  have hsorted : List.Pairwise (fun a b => ratings b.id ≤ ratings a.id)
      (sortByAvgRating ratings entries) := by
    unfold sortByAvgRating
    exact List.sorted_insertionSort (fun a b => ratings b.id ≤ ratings a.id) entries
  refine ⟨?_, ?_, ?_, ?_, ?_⟩
  · intro e he
    exact (List.mem_filter.mp he).2
  · intro e he
    have h2 := (List.mem_filter.mp (List.mem_of_mem_take he)).2
    rwa [Bool.not_eq_true'] at h2
  · exact List.length_take_le _ _
  · exact List.Pairwise.sublist (List.filter_sublist _) hsorted
  · exact List.Pairwise.sublist
      ((List.take_sublist _ _).trans (List.filter_sublist _)) hsorted

/-- Claim C7, counterexample: a stored subscription matches the created
event's location, yet the notification gateway is invoked zero times, not
once — the gateway call in `notify_event_created` is commented out. -/
theorem C7_counterexample :
    bbox_subscriptions_by_coordinate [c7sub] ⟨5, 5⟩ = [c7sub] ∧
      (notify_event_created [c7sub] c7event).gateway_invocations = [] := by
  constructor
  · decide
  · rfl

/-- Claim C7 (amended): for events, the flow computes the subscriber email
list (all matching subscriptions' emails in stored order, without
de-duplication) when the event has a location, but never invokes the
notification gateway — the call is unimplemented in this revision. -/
theorem C7_notify_event (subs : List BboxSubscription) (ev : Event) :
    (notify_event_created subs ev).gateway_invocations = [] ∧
      (notify_event_created subs ev).computed_emails =
        ev.location.map (fun loc =>
          (subs.filter (fun s => bboxContains s.bbox loc.pos)).map
            (fun s => s.user_email)) := by
  cases hev : ev.location <;>
    simp [notify_event_created, hev, email_addresses_by_coordinate,
      bbox_subscriptions_by_coordinate]

/-! Claim theorems C8. -/

/-- Claim C8, counterexample: a token decoding to the user's email with a
nonce (`"n2"`) that matches no stored `UserToken` — and regardless of any
expiry — still succeeds and mutates the user: `confirm_email_address`
never consults the stored tokens. -/
theorem C8_counterexample :
    (∀ t ∈ c8db.user_tokens, t.email_nonce.nonce ≠ "n2".toList) ∧
      (confirm_email_address c8db
        (some { email := "a@foo.bar".toList, nonce := "n2".toList })).1 = Except.ok () ∧
      (confirm_email_address c8db
          (some { email := "a@foo.bar".toList, nonce := "n2".toList })).2.users =
        [{ c8user with email_confirmed := true, role := Role.user }] := by
  refine ⟨by decide, by rfl, by rfl⟩

/-- Claim C8 (amended): `confirm_email_address` succeeds for any token
that decodes to the email of a registered user — the nonce and the stored
token's expiry are never checked.  On success, an unconfirmed user gets
`email_confirmed` set and a `Guest` is promoted to `User` (an already
confirmed user is left untouched); a malformed token fails with
`TokenInvalid` and an unknown email with `NotFound`, both leaving the
store unchanged. -/
theorem C8_confirm_email (db : UserDb) (en : EmailNonce) (u : User)
    (hu : db.users.find? (fun v => v.email == en.email) = some u) :
    (confirm_email_address db (some en)).1 = Except.ok () ∧
      (confirm_email_address db (some en)).2 =
        (if u.email_confirmed then db
         else update_user db { u with
           email_confirmed := true
           role := if u.role = Role.guest then Role.user else u.role }) ∧
      confirm_email_address db none =
        (Except.error (Error.parameter ParameterError.TokenInvalid), db) ∧
      ((db.users.find? (fun v => v.email == en.email) = none) →
        confirm_email_address db (some en) =
          (Except.error (Error.repo RepoError.NotFound), db)) := by
  refine ⟨?_, ?_, rfl, ?_⟩
  · unfold confirm_email_address decode_from_str get_user_by_email
    dsimp only
    rw [hu]
    by_cases hc : u.email_confirmed <;> simp [hc]
  · unfold confirm_email_address decode_from_str get_user_by_email
    dsimp only
    rw [hu]
    by_cases hc : u.email_confirmed <;> simp [hc]
  · intro hnone
    rw [hnone] at hu
    exact absurd hu (by simp)

/-- Witness for `C8_confirm_email` at the concrete store. -/
theorem C8_confirm_email_witness :
    (confirm_email_address c8db
        (some { email := "a@foo.bar".toList, nonce := "zzz".toList })).1 = Except.ok () :=
  (C8_confirm_email c8db { email := "a@foo.bar".toList, nonce := "zzz".toList } c8user
    (by decide)).1

/-! Claim theorems C9. -/

/-- Claim C9, counterexample: an event with `registration="email"` and no
contact at all (no email and no telephone) fails with the `Contact`
parameter error, not the claimed `Email` error. -/
theorem C9_counterexample :
    (try_into_new_event c9db "ev1".toList
        (c9request (some "email".toList) none none none)).1 =
      Except.error (Error.parameter ParameterError.Contact) ∧
      Error.parameter ParameterError.Contact ≠ Error.parameter ParameterError.Email :=
  ⟨rfl, by simp⟩

/-- Claim C9 (amended): with `registration="email"`, creation fails with
`Contact` when no contact detail at all is present, with `Email` when a
telephone is given but no email, and succeeds when a contact email is
present; `registration="telephone"` analogously fails with `Contact` /
`Phone` and requires `contact.telephone`; `registration="homepage"` fails
with `Url` when no homepage link is given and succeeds with one. -/
theorem C9_registration_coherence (db : EventDb) (id : Str) :
    (try_into_new_event db id (c9request (some "email".toList) none none none) =
        (Except.error (Error.parameter ParameterError.Contact), db)) ∧
      (∀ ph, try_into_new_event db id
          (c9request (some "email".toList) none (some ph) none) =
        (Except.error (Error.parameter ParameterError.Email), db)) ∧
      (∀ em ph, try_into_new_event db id
          (c9request (some "email".toList) (some em) ph none) =
        (Except.ok (c9event id (some { email := some em, telephone := ph }) none
          (some RegistrationType.email)), db)) ∧
      (try_into_new_event db id (c9request (some "telephone".toList) none none none) =
        (Except.error (Error.parameter ParameterError.Contact), db)) ∧
      (∀ em, try_into_new_event db id
          (c9request (some "telephone".toList) (some em) none none) =
        (Except.error (Error.parameter ParameterError.Phone), db)) ∧
      (∀ em ph, try_into_new_event db id
          (c9request (some "telephone".toList) em (some ph) none) =
        (Except.ok (c9event id (some { email := em, telephone := some ph }) none
          (some RegistrationType.phone)), db)) ∧
      (try_into_new_event db id (c9request (some "homepage".toList) none none none) =
        (Except.error (Error.parameter ParameterError.Url), db)) ∧
      (∀ h, h ≠ [] → try_into_new_event db id
          (c9request (some "homepage".toList) none none (some h)) =
        (Except.ok (c9event id none (some h) (some RegistrationType.homepage)), db)) := by
  refine ⟨rfl, fun ph => ?_, fun em ph => ?_, rfl, fun em => ?_, fun em ph => ?_, rfl, ?_⟩
  · cases ph <;> rfl
  · cases ph <;> rfl
  · rfl
  · cases em <;> rfl
  · intro h hne
    have hne2 : h.isEmpty = false := by
      cases h
      · exact absurd rfl hne
      · rfl
    have hfil : Option.filter (fun x => !List.isEmpty x) (some h) = some h := by
      simp [Option.filter, hne2]
    unfold try_into_new_event c9request
    dsimp only
    rw [hfil]
    rfl

/-- Witness for `C9_registration_coherence` at the empty store, including
the homepage clause at a concrete non-empty link. -/
theorem C9_registration_coherence_witness :
    (try_into_new_event c9db "ev2".toList
        (c9request (some "email".toList) none (some "123".toList) none)).1 =
      Except.error (Error.parameter ParameterError.Email) ∧
      (try_into_new_event c9db "ev3".toList
          (c9request (some "homepage".toList) none none (some "https".toList))).1 =
        Except.ok (c9event "ev3".toList none (some "https".toList)
          (some RegistrationType.homepage)) := by
  constructor
  · rw [(C9_registration_coherence c9db "ev2".toList).2.1 "123".toList]
  · rw [(C9_registration_coherence c9db "ev3".toList).2.2.2.2.2.2.2 "https".toList
      (by decide)]

/-! Claim theorems C10. -/

/-- Claim C10 (confirmed): any successfully returned event list is sorted
by ascending start time, and when the supplied creator email matches no
stored user, the successful result is the empty list. -/
theorem C10_query_events (db : EventDb) (tags : Option (List Str)) (bbox : Option Bbox)
    (start_min start_max : Option ℤ) (created_by : Option Str) (token : Option Str) :
    (∀ l, query_events db tags bbox start_min start_max created_by token = Except.ok l →
        List.Pairwise (fun a b : Event => a.start ≤ b.start) l) ∧
      ∀ em, created_by = some em → (∀ u ∈ db.users, u.email ≠ em) →
        ∀ l, query_events db tags bbox start_min start_max created_by token = Except.ok l →
          l = [] := by
  haveI : IsTotal Event (fun a b : Event => a.start ≤ b.start) :=
    ⟨fun a b => le_total a.start b.start⟩
  haveI : IsTrans Event (fun a b : Event => a.start ≤ b.start) :=
    ⟨fun _ _ _ h1 h2 => le_trans h1 h2⟩
  constructor
  · intro l hl
    unfold query_events at hl
    rcases token with _ | tk
    · dsimp only at hl
      rw [Except.ok.injEq] at hl
      rw [← hl]
      exact List.sorted_insertionSort (fun a b : Event => a.start ≤ b.start) _
    · dsimp only at hl
      rcases hfind : db.orgs.find? (fun o => o.api_token == tk) with _ | o <;>
        rw [hfind] at hl
      · exact absurd hl (by simp)
      · rw [Except.ok.injEq] at hl
        rw [← hl]
        exact List.sorted_insertionSort (fun a b : Event => a.start ≤ b.start) _
  · intro em hem hnouser l hl
    subst hem
    have hfindu : db.users.find? (fun u => u.email == em) = none := by
      rw [List.find?_eq_none]
      intro u hu
      have := hnouser u hu
      simpa using this
    unfold query_events at hl
    rcases token with _ | tk
    · dsimp only at hl
      rw [hfindu] at hl
      rw [Except.ok.injEq] at hl
      rw [← hl]
      rfl
    · dsimp only at hl
      rcases hfind : db.orgs.find? (fun o => o.api_token == tk) with _ | o <;>
        rw [hfind] at hl
      · exact absurd hl (by simp)
      · rw [hfindu] at hl
        rw [Except.ok.injEq] at hl
        rw [← hl]
        rfl

/-- Witness for `C10_query_events`: the unfiltered query on the concrete
store sorts by start time, and a query by an unknown creator email comes
back empty. -/
theorem C10_query_events_witness :
    List.Pairwise (fun a b : Event => a.start ≤ b.start)
        ((c10db.events.get ⟨1, by decide⟩) :: [c10db.events.get ⟨0, by decide⟩]) ∧
      ∀ l, query_events c10db none none none none (some "x@y".toList) none = Except.ok l →
        l = [] :=
  ⟨(C10_query_events c10db none none none none none none).1 _ rfl,
   fun l hl => (C10_query_events c10db none none none none (some "x@y".toList) none).2
     "x@y".toList rfl (by decide) l hl⟩

/-! Helpers for the place flow (C1). -/

theorem place_create_tag_fields (db : PlaceDb) (t : Str) :
    (place_create_tag db t).places = db.places ∧
      (place_create_tag db t).revisions = db.revisions ∧
      (place_create_tag db t).reviews = db.reviews ∧
      (place_create_tag db t).rev_tags = db.rev_tags ∧
      (place_create_tag db t).next_rowid = db.next_rowid ∧
      (place_create_tag db t).ratings = db.ratings ∧
      (place_create_tag db t).pending_auths = db.pending_auths ∧
      (place_create_tag db t).users = db.users := by
  unfold place_create_tag
  split <;> exact ⟨rfl, rfl, rfl, rfl, rfl, rfl, rfl, rfl⟩

theorem foldl_place_create_tag_fields :
    ∀ (ts : List Str) (db : PlaceDb),
      (ts.foldl place_create_tag db).places = db.places ∧
        (ts.foldl place_create_tag db).revisions = db.revisions ∧
        (ts.foldl place_create_tag db).reviews = db.reviews ∧
        (ts.foldl place_create_tag db).rev_tags = db.rev_tags ∧
        (ts.foldl place_create_tag db).next_rowid = db.next_rowid ∧
        (ts.foldl place_create_tag db).ratings = db.ratings ∧
        (ts.foldl place_create_tag db).pending_auths = db.pending_auths ∧
        (ts.foldl place_create_tag db).users = db.users
  | [], _ => ⟨rfl, rfl, rfl, rfl, rfl, rfl, rfl, rfl⟩
  | t :: ts, db => by
    rw [List.foldl_cons]
    have h1 := place_create_tag_fields db t
    have h2 := foldl_place_create_tag_fields ts (place_create_tag db t)
    exact ⟨h2.1.trans h1.1, h2.2.1.trans h1.2.1, h2.2.2.1.trans h1.2.2.1,
      h2.2.2.2.1.trans h1.2.2.2.1, h2.2.2.2.2.1.trans h1.2.2.2.2.1,
      h2.2.2.2.2.2.1.trans h1.2.2.2.2.2.1,
      h2.2.2.2.2.2.2.1.trans h1.2.2.2.2.2.2.1,
      h2.2.2.2.2.2.2.2.trans h1.2.2.2.2.2.2.2⟩

theorem parse_opt_url_ok (o : Option Str) : ∃ v, parse_opt_url o = Except.ok v := by
  rcases o with _ | s
  · exact ⟨none, rfl⟩
  · unfold parse_opt_url parse_url_param_place
    by_cases hs : s.isEmpty
    · exact ⟨none, by dsimp only; rw [if_pos hs]⟩
    · exact ⟨some s, by dsimp only; rw [if_neg hs]⟩

theorem find?_map_places (l : List PlaceRow) (pid : Str) (pr : PlaceRow)
    (f : PlaceRow → PlaceRow) (hf : ∀ r, (f r).pid = r.pid)
    (h : l.find? (fun r => r.pid == pid) = some pr) :
    (l.map f).find? (fun r => r.pid == pid) = some (f pr) := by
  rw [List.find?_map]
  have hcong : ((fun r : PlaceRow => r.pid == pid) ∘ f) = fun r => r.pid == pid := by
    funext r
    simp [Function.comp, hf r]
  rw [hcong, h]
  rfl

/-- Claim C1 (confirmed): for a stored place at revision N, an otherwise
valid update submitting a version other than N+1 fails with
`InvalidVersion` and leaves the store untouched, while one submitting N+1
succeeds and advances the place's current revision to N+1, storing the new
revision row with status `Created`. -/
theorem C1_update_place_optimistic_lock
    (db : PlaceDb) (pid : Str) (e : UpdatePlace) (now : ℤ)
    (old : Place) (st : ReviewStatus) (pr : PlaceRow) (pos : MapPoint)
    (hget : db_get_place db pid = Except.ok (old, st))
    (hpr : db.places.find? (fun r => r.pid == pid) = some pr)
    (hcur : pr.current_rev = old.revision)
    (hrev1 : 1 ≤ old.revision)
    (hpos : tryFromLatLngDeg e.lat e.lng = some pos)
    (hauth : authorize_editing db.orgs old.tags
      (prepare_tag_list (merge_ids_into_tags e.categories e.tags)) none = Except.ok [])
    (hnorev : ∀ rr ∈ db.revisions,
      ¬(rr.parent_rowid = pr.rowid ∧ rr.rev = old.revision + 1)) :
    (e.version ≠ old.revision + 1 →
      update_place_flow db pid e none now =
        (Except.error (Error.repo RepoError.InvalidVersion), db)) ∧
      (e.version = old.revision + 1 →
        ∃ p rts db2, update_place_flow db pid e none now = (Except.ok (p, rts), db2) ∧
          p.revision = old.revision + 1 ∧
          db2.places.find? (fun r => r.pid == pid) =
            some { pr with current_rev := old.revision + 1 } ∧
          ∃ rr ∈ db2.revisions, rr.parent_rowid = pr.rowid ∧
            rr.rev = old.revision + 1 ∧ rr.current_status = ReviewStatus.created.toPrim) := by
  constructor
  · intro hne
    unfold update_place_flow prepare_updated_place
    rw [hpos]
    dsimp only
    rw [hget]
    dsimp only
    rw [if_pos (fun hh => hne hh.symm)]
  · intro heq
    obtain ⟨v1, hv1⟩ := parse_opt_url_ok e.homepage
    obtain ⟨v2, hv2⟩ := parse_opt_url_ok e.image_url
    obtain ⟨v3, hv3⟩ := parse_opt_url_ok e.image_link_url
    have hprep : ∃ S : Storable, prepare_updated_place db pid e none now = Except.ok S ∧
        S.place.id = pid ∧ S.place.revision = e.version ∧
        S.place.created.by_ = none ∧ S.auth_org_ids = [] := by
      unfold prepare_updated_place
      rw [hpos]
      dsimp only
      rw [hget]
      dsimp only
      rw [if_neg (by omega)]
      rw [hauth]
      dsimp only
      rw [hv1]
      dsimp only
      rw [hv2]
      dsimp only
      rw [hv3]
      dsimp only
      rcases ho : e.opening_hours with _ | s
      · dsimp only
        exact ⟨_, rfl, rfl, rfl, rfl, rfl⟩
      · dsimp only
        unfold parse_opening_hours
        dsimp only
        exact ⟨_, rfl, rfl, rfl, rfl, rfl⟩
    obtain ⟨S, hSeq, hSid, hSrev, hSby, hSauth⟩ := hprep
    unfold update_place_flow
    rw [hSeq]
    dsimp only
    -- the store stage
    unfold store_updated_place
    have hfold := foldl_place_create_tag_fields S.place.tags db
    set db1 := S.place.tags.foldl place_create_tag db with hdb1
    unfold create_or_update_place into_new_place_revision
    dsimp only
    rw [hSrev, heq]
    rw [if_neg (by omega : ¬ old.revision + 1 = 1)]
    unfold resolve_place_rowid
    rw [hSid, hfold.1, hpr]
    dsimp only
    rw [if_neg (by simp [hcur] : ¬ pr.current_rev + 1 ≠ old.revision + 1)]
    dsimp only
    rw [hSby]
    dsimp only
    set f : PlaceRow → PlaceRow := fun r =>
      if r.rowid == pr.rowid && r.current_rev == pr.current_rev then
        { r with current_rev := old.revision + 1 } else r with hf
    have hfindnone : db.revisions.find?
        (fun r => r.parent_rowid == pr.rowid && r.rev == old.revision + 1) = none := by
      rw [List.find?_eq_none]
      intro rr hrr
      have h2 := hnorev rr hrr
      simp only [Bool.and_eq_true, beq_iff_eq]
      rintro ⟨ha, hb⟩
      exact h2 ⟨ha, hb⟩
    rw [hfold.2.1, List.find?_append, hfindnone]
    rw [hSauth]
    simp only [List.find?_cons, List.find?_nil, beq_self_eq_true, Bool.and_self,
      Option.none_or, if_true, List.isEmpty_nil]
    refine ⟨S.place, _, _, rfl, ?_, ?_, ?_⟩
    · rw [hSrev, heq]
    · show (db.places.map f).find? (fun r => r.pid == pid) =
        some { pr with current_rev := old.revision + 1 }
      have happ := find?_map_places db.places pid pr f
        (fun r => by rw [hf]; dsimp only; split <;> rfl) hpr
      rw [happ]
      have : f pr = { pr with current_rev := old.revision + 1 } := by
        rw [hf]
        simp
      rw [this]
    · refine ⟨_, List.mem_append_right _ (List.mem_singleton_self _), rfl, rfl, rfl⟩

/-- Witness for `C1_update_place_optimistic_lock` on the concrete store:
version 3 (≠ 3+1) is rejected with `InvalidVersion` leaving the store
unchanged, and version 4 succeeds advancing the current revision. -/
theorem C1_update_place_witness :
    (update_place_flow c1db "p1".toList (c1upd 3) none 77 =
        (Except.error (Error.repo RepoError.InvalidVersion), c1db)) ∧
      ∃ p rts db2, update_place_flow c1db "p1".toList (c1upd 4) none 77 =
          (Except.ok (p, rts), db2) ∧
        p.revision = c1old.revision + 1 ∧
        db2.places.find? (fun r => r.pid == "p1".toList) =
          some { rowid := 1, pid := "p1".toList, license := "CC0".toList
                 current_rev := c1old.revision + 1 } ∧
        ∃ rr ∈ db2.revisions, rr.parent_rowid = 1 ∧
          rr.rev = c1old.revision + 1 ∧ rr.current_status = ReviewStatus.created.toPrim := by
  constructor
  · exact (C1_update_place_optimistic_lock c1db "p1".toList (c1upd 3) 77 c1old
      ReviewStatus.created
      { rowid := 1, pid := "p1".toList, license := "CC0".toList, current_rev := 3 }
      ⟨0, 0⟩ rfl rfl rfl (by decide) rfl rfl (by decide)).1 (by decide)
  · exact (C1_update_place_optimistic_lock c1db "p1".toList (c1upd 4) 77 c1old
      ReviewStatus.created
      { rowid := 1, pid := "p1".toList, license := "CC0".toList, current_rev := 3 }
      ⟨0, 0⟩ rfl rfl rfl (by decide) rfl rfl (by decide)).2 rfl

/-! Helpers for `review_places` (C2). -/

theorem countP_eq_one_of_nodup_rowid :
    ∀ {l : List PlaceRevRow}, (l.map (fun r => r.rowid)).Nodup →
      ∀ {rr : PlaceRevRow}, rr ∈ l → ∀ (p : PlaceRevRow → Bool), p rr = true →
        l.countP (fun x => x.rowid == rr.rowid && p x) = 1
  | [], _, _, hrr, _, _ => absurd hrr (List.not_mem_nil _)
  | a :: l, hnd, rr, hrr, p, hp => by
    rw [List.map_cons, List.nodup_cons] at hnd
    rcases List.mem_cons.mp hrr with he | hm
    · subst he
      rw [List.countP_cons]
      have hz : l.countP (fun x => x.rowid == rr.rowid && p x) = 0 := by
        rw [List.countP_eq_zero]
        intro x hx
        simp only [Bool.and_eq_true, beq_iff_eq, not_and]
        intro hids
        exact absurd (hids ▸ List.mem_map_of_mem (fun r => r.rowid) hx) hnd.1
      rw [hz]
      simp [hp]
    · rw [List.countP_cons]
      have hne : (a.rowid == rr.rowid && p a) = false := by
        have : a.rowid ≠ rr.rowid := by
          intro hcon
          exact hnd.1 (hcon ▸ List.mem_map_of_mem (fun r => r.rowid) hm)
        simp [this]
      rw [hne]
      simpa using countP_eq_one_of_nodup_rowid hnd.2 hm p hp

theorem review_places_loop_spec (prim chat : ℤ) (chby : Option ℤ) (ctx cmt : Option Str) :
    ∀ (rids : List ℤ) (db : PlaceDb) (acc : ℕ),
      rids.Nodup →
      (∀ rid ∈ rids, db.revisions.countP
        (fun r => r.rowid == rid && r.current_status != prim) = 1) →
      (∀ rid ∈ rids, maxReviewRev db rid ≠ none) →
      review_places_loop prim chat chby ctx cmt rids db acc =
        Except.ok (acc + rids.length,
          { db with
            revisions := db.revisions.map (fun r =>
              if rids.contains r.rowid && r.current_status != prim then
                { r with current_status := prim } else r)
            reviews := db.reviews ++ rids.map (fun rid =>
              { parent_rowid := rid, rev := (maxReviewRev db rid).getD 0 + 1
                created_at := chat, created_by := chby, status := prim
                context := ctx, comment := cmt }) })
  | [], db, acc => by
    intro _ _ _
    rw [review_places_loop]
    have hmap : (fun (r : PlaceRevRow) =>
        if ([] : List ℤ).contains r.rowid && r.current_status != prim then
          { r with current_status := prim } else r) = fun r => r := by
      funext r
      simp
    rw [hmap, List.map_id']
    simp
  | rid :: rest, db, acc => by
    intro hnd hcnt hmax
    have hndr := List.nodup_cons.mp hnd
    rw [review_places_loop]
    dsimp only
    rw [hcnt rid (List.mem_cons_self rid rest)]
    rw [if_pos (by omega : (0:ℕ) < 1)]
    have hm1 : maxReviewRev
        { db with revisions := db.revisions.map (fun r =>
            if r.rowid == rid && r.current_status != prim then
              { r with current_status := prim } else r) } rid = maxReviewRev db rid := rfl
    obtain ⟨m, hm⟩ := Option.ne_none_iff_exists'.mp (hmax rid (List.mem_cons_self rid rest))
    rw [hm1, hm]
    dsimp only
    -- the store after this iteration
    set row : PlaceReviewRow :=
      { parent_rowid := rid, rev := m + 1, created_at := chat
        created_by := chby, status := prim, context := ctx, comment := cmt } with hrow
    set db2 : PlaceDb :=
      { db with
        revisions := db.revisions.map (fun r =>
          if r.rowid == rid && r.current_status != prim then
            { r with current_status := prim } else r)
        reviews := db.reviews ++ [row] } with hdb2
    have hih := review_places_loop_spec prim chat chby ctx cmt rest db2 (acc + 1)
      hndr.2
      (by
        intro rid2 hm2
        have hne : rid2 ≠ rid := fun hcon => hndr.1 (hcon ▸ hm2)
        rw [hdb2]
        dsimp only
        rw [List.countP_map]
        have hcong : ((fun r : PlaceRevRow => r.rowid == rid2 && r.current_status != prim) ∘
            (fun r : PlaceRevRow =>
              if r.rowid == rid && r.current_status != prim then
                { r with current_status := prim } else r)) =
            fun r : PlaceRevRow => r.rowid == rid2 && r.current_status != prim := by
          funext r
          simp only [Function.comp]
          split
          · rename_i hcond
            rw [Bool.and_eq_true] at hcond
            have hr : r.rowid = rid := by simpa using hcond.1
            have hfalse : (r.rowid == rid2) = false := by
              simp only [beq_eq_false_iff_ne, ne_eq, hr]
              exact fun hcon => hne hcon.symm
            simp [hfalse]
          · rfl
        rw [hcong]
        exact hcnt rid2 (List.mem_cons_of_mem rid hm2))
      (by
        intro rid2 hm2
        have hne : rid2 ≠ rid := fun hcon => hndr.1 (hcon ▸ hm2)
        rw [hdb2]
        unfold maxReviewRev
        dsimp only
        rw [List.filter_append]
        have hemp : List.filter (fun v => v.parent_rowid == rid2) [row] = [] := by
          rw [hrow]
          simp [hne.symm]
        rw [hemp, List.append_nil]
        exact hmax rid2 (List.mem_cons_of_mem rid hm2))
    have hmax2 : ∀ rid2 ∈ rest, maxReviewRev db2 rid2 = maxReviewRev db rid2 := by
      intro rid2 hm2
      have hne : rid2 ≠ rid := fun hcon => hndr.1 (hcon ▸ hm2)
      rw [hdb2]
      unfold maxReviewRev
      dsimp only
      rw [List.filter_append]
      have hemp : List.filter (fun v => v.parent_rowid == rid2) [row] = [] := by
        rw [hrow]
        simp [hne.symm]
      rw [hemp, List.append_nil]
    rw [hih]
    have ha : acc + 1 + rest.length = acc + (rid :: rest).length := by
      rw [List.length_cons]
      omega
    have hmaps : rest.map (fun rid2 =>
        ({ parent_rowid := rid2, rev := (maxReviewRev db2 rid2).getD 0 + 1
           created_at := chat, created_by := chby, status := prim
           context := ctx, comment := cmt } : PlaceReviewRow)) =
        rest.map (fun rid2 =>
        ({ parent_rowid := rid2, rev := (maxReviewRev db rid2).getD 0 + 1
           created_at := chat, created_by := chby, status := prim
           context := ctx, comment := cmt } : PlaceReviewRow)) := by
      apply List.map_congr_left
      intro rid2 hm2
      rw [hmax2 rid2 hm2]
    have hrevs : (db.revisions.map (fun r =>
        if r.rowid == rid && r.current_status != prim then
          { r with current_status := prim } else r)).map (fun r =>
        if rest.contains r.rowid && r.current_status != prim then
          { r with current_status := prim } else r) =
        db.revisions.map (fun r =>
        if (rid :: rest).contains r.rowid && r.current_status != prim then
          { r with current_status := prim } else r) := by
      rw [List.map_map]
      apply List.map_congr_left
      intro r _
      simp only [Function.comp]
      by_cases h1 : (r.rowid == rid && r.current_status != prim) = true
      · rw [if_pos h1]
        have h2 := Bool.and_eq_true_iff.mp h1
        rw [if_neg (by simp)]
        rw [if_pos (by
          rw [List.contains_cons]
          simp only [Bool.and_eq_true, Bool.or_eq_true]
          exact ⟨Or.inl h2.1, h2.2⟩)]
      · rw [if_neg h1]
        have h1f : (r.rowid == rid && r.current_status != prim) = false :=
          Bool.not_eq_true _ ▸ Bool.eq_false_iff.mpr h1
        rcases Bool.and_eq_false_iff.mp h1f with h2 | h2
        · have hcont : (rid :: rest).contains r.rowid = rest.contains r.rowid := by
            rw [List.contains_cons, h2, Bool.false_or]
          rw [hcont]
        · rw [if_neg (by rw [h2]; simp), if_neg (by rw [h2]; simp)]
    rw [ha]
    rw [hdb2]
    dsimp only
    rw [hrevs, hmaps]
    rw [List.map_cons, List.append_assoc, List.singleton_append, hm]
    rfl

theorem find?_rowid_of_nodup :
    ∀ {l : List PlaceRow}, (l.map (fun r => r.rowid)).Nodup →
      ∀ {pr : PlaceRow}, pr ∈ l → l.find? (fun x => x.rowid == pr.rowid) = some pr
  | [], _, _, hpr => absurd hpr (List.not_mem_nil _)
  | a :: l, hnd, pr, hpr => by
    rw [List.map_cons, List.nodup_cons] at hnd
    rcases List.mem_cons.mp hpr with he | hm
    · subst he
      rw [List.find?_cons_of_pos _ (by simp)]
    · have hne : a.rowid ≠ pr.rowid := by
        intro hcon
        exact hnd.1 (hcon ▸ List.mem_map_of_mem (fun r => r.rowid) hm)
      rw [List.find?_cons_of_neg _ (by simp [hne])]
      exact find?_rowid_of_nodup hnd.2 hm

theorem sel_length_eq_changed (db : PlaceDb) (ids : List Str) (prim : ℤ)
    (hrevnd : (db.revisions.map (fun r => r.rowid)).Nodup)
    (hplnd : (db.places.map (fun r => r.rowid)).Nodup)
    (hpairs : (db.revisions.map (fun r => (r.parent_rowid, r.rev))).Nodup) :
    (selectReviewRevIds db ids prim).length =
      (db.places.filter (fun pr => ids.contains pr.pid &&
        db.revisions.any (fun rr => rr.parent_rowid == pr.rowid &&
          rr.rev == pr.current_rev && rr.current_status != prim))).length := by
  classical
  set Q : PlaceRevRow → Bool := fun rr =>
    db.places.any (fun pr => rr.parent_rowid == pr.rowid &&
      rr.rev == pr.current_rev && ids.contains pr.pid) && rr.current_status != prim with hQ
  set Pp : PlaceRow → Bool := fun pr => ids.contains pr.pid &&
    db.revisions.any (fun rr => rr.parent_rowid == pr.rowid &&
      rr.rev == pr.current_rev && rr.current_status != prim) with hPp
  have hrev : db.revisions.Nodup := List.Nodup.of_map _ hrevnd
  have hpl : db.places.Nodup := List.Nodup.of_map _ hplnd
  have hlhs : (selectReviewRevIds db ids prim).length =
      ((db.revisions.toFinset.filter (fun rr => Q rr = true)).card) := by
    unfold selectReviewRevIds
    rw [List.length_map, ← List.toFinset_filter,
      List.toFinset_card_of_nodup (hrev.filter Q)]
  have hrhs : (db.places.filter Pp).length =
      ((db.places.toFinset.filter (fun pr => Pp pr = true)).card) := by
    rw [← List.toFinset_filter, List.toFinset_card_of_nodup (hpl.filter Pp)]
  rw [hlhs, hrhs]
  apply Finset.card_bij (fun rr _ =>
    (db.places.find? (fun x => x.rowid == rr.parent_rowid)).getD ⟨0, [], [], 0⟩)
  · intro rr hrr
    rw [Finset.mem_filter, List.mem_toFinset] at hrr
    obtain ⟨hmem, hq⟩ := hrr
    rw [hQ, Bool.and_eq_true, List.any_eq_true] at hq
    obtain ⟨⟨pr, hprmem, hpred⟩, hstat⟩ := hq
    simp only [Bool.and_eq_true, beq_iff_eq] at hpred
    have hfind : db.places.find? (fun x => x.rowid == rr.parent_rowid) = some pr := by
      rw [hpred.1.1]
      exact find?_rowid_of_nodup hplnd hprmem
    rw [hfind]
    rw [Finset.mem_filter, List.mem_toFinset]
    refine ⟨hprmem, ?_⟩
    rw [hPp]
    simp only [Bool.and_eq_true, List.any_eq_true]
    refine ⟨hpred.2, rr, hmem, ?_⟩
    simp only [Bool.and_eq_true, beq_iff_eq]
    exact ⟨⟨hpred.1.1, hpred.1.2⟩, hstat⟩
  · intro rr1 hrr1 rr2 hrr2 heq
    rw [Finset.mem_filter, List.mem_toFinset] at hrr1 hrr2
    obtain ⟨hmem1, hq1⟩ := hrr1
    obtain ⟨hmem2, hq2⟩ := hrr2
    rw [hQ, Bool.and_eq_true, List.any_eq_true] at hq1 hq2
    obtain ⟨⟨pr1, hpr1, hpred1⟩, _⟩ := hq1
    obtain ⟨⟨pr2, hpr2, hpred2⟩, _⟩ := hq2
    simp only [Bool.and_eq_true, beq_iff_eq] at hpred1 hpred2
    have hfind1 : db.places.find? (fun x => x.rowid == rr1.parent_rowid) = some pr1 := by
      rw [hpred1.1.1]
      exact find?_rowid_of_nodup hplnd hpr1
    have hfind2 : db.places.find? (fun x => x.rowid == rr2.parent_rowid) = some pr2 := by
      rw [hpred2.1.1]
      exact find?_rowid_of_nodup hplnd hpr2
    rw [hfind1, hfind2] at heq
    simp only [Option.getD_some] at heq
    subst heq
    have hp1 : (rr1.parent_rowid, rr1.rev) = (rr2.parent_rowid, rr2.rev) := by
      rw [Prod.mk.injEq]
      exact ⟨hpred1.1.1.trans hpred2.1.1.symm,
        hpred1.1.2.trans hpred2.1.2.symm⟩
    exact List.inj_on_of_nodup_map hpairs hmem1 hmem2 hp1
  · intro pr hpr
    rw [Finset.mem_filter, List.mem_toFinset] at hpr
    obtain ⟨hmem, hp⟩ := hpr
    rw [hPp, Bool.and_eq_true, List.any_eq_true] at hp
    obtain ⟨hids, rr, hrrmem, hpred⟩ := hp
    simp only [Bool.and_eq_true, beq_iff_eq] at hpred
    refine ⟨rr, ?_, ?_⟩
    · rw [Finset.mem_filter, List.mem_toFinset]
      refine ⟨hrrmem, ?_⟩
      rw [hQ]
      simp only [Bool.and_eq_true, List.any_eq_true]
      refine ⟨⟨pr, hmem, ?_⟩, hpred.2⟩
      simp only [Bool.and_eq_true, beq_iff_eq]
      exact ⟨⟨hpred.1.1, hpred.1.2⟩, hids⟩
    · have hfind : db.places.find? (fun x => x.rowid == rr.parent_rowid) = some pr := by
        rw [hpred.1.1]
        exact find?_rowid_of_nodup hplnd hmem
      rw [hfind]
      rfl

/-- Claim C2 (confirmed): `review_places` updates the current status of
exactly those addressed places whose current revision's status differs
from the new one, appends for each exactly one review row with
`rev = max(rev) + 1` carrying the supplied context and comment, leaves all
other rows (and places already at the new status) unchanged, and returns
the number of changed places. -/
theorem C2_review_places (db : PlaceDb) (ids : List Str) (status : ReviewStatus)
    (log : ActivityLog)
    (hby : log.activity.by_ = none)
    (hrevnd : (db.revisions.map (fun r => r.rowid)).Nodup)
    (hplnd : (db.places.map (fun r => r.rowid)).Nodup)
    (hpairs : (db.revisions.map (fun r => (r.parent_rowid, r.rev))).Nodup)
    (hmaxs : ∀ rid ∈ selectReviewRevIds db ids status.toPrim,
      maxReviewRev db rid ≠ none) :
    ∃ db2, review_places db ids status log =
        Except.ok ((selectReviewRevIds db ids status.toPrim).length, db2) ∧
      db2.revisions = db.revisions.map (fun r =>
        if (selectReviewRevIds db ids status.toPrim).contains r.rowid &&
            r.current_status != status.toPrim then
          { r with current_status := status.toPrim } else r) ∧
      db2.reviews = db.reviews ++
        (selectReviewRevIds db ids status.toPrim).map (fun rid =>
          { parent_rowid := rid, rev := (maxReviewRev db rid).getD 0 + 1
            created_at := log.activity.at_, created_by := none
            status := status.toPrim, context := log.context
            comment := log.comment }) ∧
      db2.places = db.places ∧
      (selectReviewRevIds db ids status.toPrim).length =
        (db.places.filter (fun pr => ids.contains pr.pid &&
          db.revisions.any (fun rr => rr.parent_rowid == pr.rowid &&
            rr.rev == pr.current_rev && rr.current_status != status.toPrim))).length := by
  have hselnd : (selectReviewRevIds db ids status.toPrim).Nodup := by
    unfold selectReviewRevIds
    exact List.Nodup.sublist (List.Sublist.map _ (List.filter_sublist _)) hrevnd
  have hcnts : ∀ rid ∈ selectReviewRevIds db ids status.toPrim,
      db.revisions.countP
        (fun r => r.rowid == rid && r.current_status != status.toPrim) = 1 := by
    intro rid hrid
    unfold selectReviewRevIds at hrid
    rw [List.mem_map] at hrid
    obtain ⟨rr, hrrmem, hrid2⟩ := hrid
    rw [List.mem_filter] at hrrmem
    have hstat : (rr.current_status != status.toPrim) = true :=
      (Bool.and_eq_true_iff.mp hrrmem.2).2
    subst hrid2
    exact countP_eq_one_of_nodup_rowid hrevnd hrrmem.1 _ hstat
  have hloop := review_places_loop_spec status.toPrim log.activity.at_ none
    log.context log.comment (selectReviewRevIds db ids status.toPrim) db 0
    hselnd hcnts hmaxs
  rw [Nat.zero_add] at hloop
  unfold review_places
  rw [hby]
  dsimp only
  rw [hloop]
  exact ⟨_, rfl, rfl, rfl, rfl,
    sel_length_eq_changed db ids status.toPrim hrevnd hplnd hpairs⟩

/-- Witness for `C2_review_places`: reviewing the single stored place of
`c1db` (at status `Created`) to `Confirmed` changes exactly one place. -/
theorem C2_review_places_witness :
    ∃ db2, review_places c1db ["p1".toList] ReviewStatus.confirmed
        { activity := { at_ := 5, by_ := none }, context := some "ctx".toList
          comment := some "cm".toList } =
      Except.ok (1, db2) := by
  obtain ⟨db2, h1, _⟩ := C2_review_places c1db ["p1".toList] ReviewStatus.confirmed
    { activity := { at_ := 5, by_ := none }, context := some "ctx".toList
      comment := some "cm".toList }
    rfl (by decide) (by decide) (by decide) (by decide)
  exact ⟨db2, h1⟩
